import Mathlib

/-!
# Button debounce, responder and animator of `main/imp_final.c` (RTOS variant)

A shallow embedding of the `WITH_RTOS` half of `imp_final.c`:

* the globals `last_interrupt_time`, `can_blink`, `buttonSemaphore`, the local
  `isLampOn` of `led1_task` and the two LED output lines are fields of `Sys`;
* `button_isr_handler` is a state transformer taking the value read from
  `xTaskGetTickCountFromISR()` and the constant `portTICK_PERIOD_MS`;
* `led1_task` and `led2_task` are small-step machines with one program point per
  statement of their loop bodies;
* `uint32_t` arithmetic is arithmetic on `Nat` reduced modulo `2 ^ 32`.

The clock `time` (milliseconds) and the `trace` of observable effects are ghost
fields: the C code never reads them.
-/

namespace ImpFinal

/-! ## Constants and 32-bit arithmetic -/

/-- The macro `DEBOUNCE_TIME_MS` (line 17). -/
def DEBOUNCE_TIME_MS : Nat := 200

/-- Number of values of a `uint32_t`. -/
def U32 : Nat := 4294967296

/-- Subtraction of two `uint32_t` values, `a - b` as computed by C (modulo `2 ^ 32`). -/
def sub32 (a b : Nat) : Nat := (a + U32 - b) % U32

/-- The C operator `!` on an `int`. -/
def lnot (x : Int) : Int := if x = 0 then 1 else 0

/-! ## State -/

/-- Program points of the loop of `led1_task` (lines 89-102). -/
inductive Led1Pc where
  | take    -- line 91, `xSemaphoreTake(buttonSemaphore, portMAX_DELAY)`
  | toggle  -- line 95, `isLampOn = !isLampOn`
  | write   -- line 96, `gpio_set_level(LED1_PIN, isLampOn)`
  | clear   -- line 100, `can_blink = 0`
  deriving DecidableEq

/-- Program points of the loop of `led2_task` (lines 107-120). -/
inductive Led2Pc where
  | check      -- line 109, `if (!can_blink)`
  | delay2000  -- line 110, about to call `vTaskDelay(pdMS_TO_TICKS(2000))`
  | wait2000   -- line 110, blocked inside the delay
  | enable     -- line 111, `can_blink = 1`
  | high       -- line 116, `gpio_set_level(LED2_PIN, 1)`
  | delay500a  -- line 117, about to call `vTaskDelay(pdMS_TO_TICKS(500))`
  | wait500a   -- line 117, blocked inside the delay
  | low        -- line 118, `gpio_set_level(LED2_PIN, 0)`
  | delay500b  -- line 119, about to call `vTaskDelay(pdMS_TO_TICKS(500))`
  | wait500b   -- line 119, blocked inside the delay
  deriving DecidableEq

/-- Observable effects, recorded with the clock value at which they happen. -/
inductive Ev where
  | accept (latched : Bool)  -- the handler took its branch; `latched`: semaphore was already signaled
  | taken                    -- `xSemaphoreTake` returned in `led1_task`
  | toggle                   -- `isLampOn = !isLampOn`
  | led1 (level : Int)       -- `gpio_set_level(LED1_PIN, level)`
  | led2 (level : Int)       -- `gpio_set_level(LED2_PIN, level)`
  | blinkOn                  -- `can_blink = 1` in `led2_task`
  deriving DecidableEq

/-- The state of the running system. -/
structure Sys where
  /-- Ghost wall clock, in milliseconds. -/
  time : Nat
  /-- The global `last_interrupt_time` (line 18), a `uint32_t`. -/
  last_interrupt_time : Nat
  /-- The global `can_blink` (line 21). -/
  can_blink : Int
  /-- Whether the binary semaphore `buttonSemaphore` is in its signaled state. -/
  buttonSemaphore : Bool
  /-- The local `isLampOn` of `led1_task` (line 85). -/
  isLampOn : Int
  /-- Level last written to `LED1_PIN`. -/
  led1_level : Int
  /-- Level last written to `LED2_PIN`. -/
  led2_level : Int
  /-- Program point of `led1_task`. -/
  pc1 : Led1Pc
  /-- Program point of `led2_task`. -/
  pc2 : Led2Pc
  /-- Clock value at which the pending `vTaskDelay` of `led2_task` expires. -/
  wake2 : Nat
  /-- Ghost record of observable effects, oldest first. -/
  trace : List (Nat × Ev)
  deriving DecidableEq

/-- The state at boot: the initialisers of lines 18, 21 and 85, a freshly created
(empty) semaphore, both outputs low, both tasks at the head of their loops. -/
def init : Sys :=
  { time := 0, last_interrupt_time := 0, can_blink := 1, buttonSemaphore := false,
    isLampOn := 0, led1_level := 0, led2_level := 0, pc1 := .take, pc2 := .check,
    wake2 := 0, trace := [] }

/-! ## Semaphore primitives -/

/-- Modelled from the spec: `xSemaphoreGiveFromISR` is a FreeRTOS macro that is not
part of the repository. The spec (section 3, EventSignal) says that signalling sets
the state to signaled and is idempotent while already signaled. Maps the old state
of the semaphore to the new one. -/
def xSemaphoreGiveFromISR (_signaled : Bool) : Bool := true

/-- Modelled from the spec: `xSemaphoreTake(_, portMAX_DELAY)` is a FreeRTOS macro
that is not part of the repository. The spec (section 3, EventSignal) says that take
blocks the caller until the state is signaled and then resets it to empty. `none`
stands for "the caller stays blocked", `some b` for "returned, new state `b`". -/
def xSemaphoreTake (signaled : Bool) : Option Bool :=
  if signaled then some false else none

/-! ## The interrupt handler -/

/-- Line 67: `xTaskGetTickCountFromISR() * portTICK_PERIOD_MS` stored in a `uint32_t`.
`P` is `portTICK_PERIOD_MS`, `tick` the value returned by `xTaskGetTickCountFromISR`. -/
def current_time (P tick : Nat) : Nat := (tick * P) % U32

/-- The condition of line 70. -/
def isr_accepts (P tick : Nat) (s : Sys) : Bool :=
  decide (sub32 (current_time P tick) s.last_interrupt_time > DEBOUNCE_TIME_MS)

/-- The function `button_isr_handler` (lines 66-81). -/
def button_isr_handler (P tick : Nat) (s : Sys) : Sys :=
  if isr_accepts P tick s then
    { s with
      last_interrupt_time := current_time P tick
      can_blink := 0
      buttonSemaphore := xSemaphoreGiveFromISR s.buttonSemaphore
      trace := s.trace ++ [(s.time, Ev.accept s.buttonSemaphore)] }
  else s

/-! ## The two tasks -/

/-- The function `led1_task` (lines 84-103), one statement at a time: executes the
statement of its loop at the program point `pc1`. At `take` with the semaphore empty
the task is blocked and the state is unchanged. The `printf` calls are left out. -/
def led1_task (s : Sys) : Sys :=
  match s.pc1 with
  | .take =>
    match xSemaphoreTake s.buttonSemaphore with
    | some b => { s with buttonSemaphore := b, pc1 := .toggle,
                         trace := s.trace ++ [(s.time, Ev.taken)] }
    | none => s
  | .toggle => { s with isLampOn := lnot s.isLampOn, pc1 := .write,
                        trace := s.trace ++ [(s.time, Ev.toggle)] }
  | .write => { s with led1_level := s.isLampOn, pc1 := .clear,
                       trace := s.trace ++ [(s.time, Ev.led1 s.isLampOn)] }
  | .clear => { s with can_blink := 0, pc1 := .take }

/-- Whether `led1_task` can execute a statement. -/
def led1_ready (s : Sys) : Bool :=
  !(s.pc1 = .take && !s.buttonSemaphore)

/-- Modelled from the spec: `vTaskDelay` and `pdMS_TO_TICKS` belong to FreeRTOS and
are not part of the repository. The spec (sections 4.4 and 5) says that the animator
blocks for a fixed duration, 2000 ms or 500 ms, and suspends only inside these delays.
Gives the clock value at which a delay of `ms` milliseconds requested at `time`
expires. -/
def vTaskDelay (time ms : Nat) : Nat := time + ms

/-- The function `led2_task` (lines 106-121), one statement at a time: executes the
statement of its loop at the program point `pc2`. Inside a delay that has not
expired the task is blocked and the state is unchanged. The `printf` call is left
out. -/
def led2_task (s : Sys) : Sys :=
  match s.pc2 with
  | .check => if s.can_blink = 0 then { s with pc2 := .delay2000 } else { s with pc2 := .high }
  | .delay2000 => { s with pc2 := .wait2000, wake2 := vTaskDelay s.time 2000 }
  | .wait2000 => if s.wake2 ≤ s.time then { s with pc2 := .enable } else s
  | .enable => { s with can_blink := 1, pc2 := .high,
                        trace := s.trace ++ [(s.time, Ev.blinkOn)] }
  | .high => { s with led2_level := 1, pc2 := .delay500a,
                      trace := s.trace ++ [(s.time, Ev.led2 1)] }
  | .delay500a => { s with pc2 := .wait500a, wake2 := vTaskDelay s.time 500 }
  | .wait500a => if s.wake2 ≤ s.time then { s with pc2 := .low } else s
  | .low => { s with led2_level := 0, pc2 := .delay500b,
                     trace := s.trace ++ [(s.time, Ev.led2 0)] }
  | .delay500b => { s with pc2 := .wait500b, wake2 := vTaskDelay s.time 500 }
  | .wait500b => if s.wake2 ≤ s.time then { s with pc2 := .check } else s

/-- Whether `led2_task` is blocked inside a delay. -/
def led2_blocked (s : Sys) : Bool :=
  (s.pc2 = .wait2000 || s.pc2 = .wait500a || s.pc2 = .wait500b) && decide (s.time < s.wake2)

/-! ## Executions -/

/-- What can happen next: an edge interrupt (with the tick count it reads), a
statement of either task, or the passage of `d` ms. -/
inductive Action where
  | isr (tick : Nat)
  | led1
  | led2
  | elapse (d : Nat)
  deriving DecidableEq

/-- Effect of one action. -/
def act (P : Nat) (a : Action) (s : Sys) : Sys :=
  match a with
  | .isr tick => button_isr_handler P tick s
  | .led1 => led1_task s
  | .led2 => led2_task s
  | .elapse d => { s with time := s.time + d }

/-- Effect of a sequence of actions, first action first. -/
def exec (P : Nat) : List Action → Sys → Sys
  | [], s => s
  | a :: as, s => exec P as (act P a s)

/-- Feeds a sequence of raw edges to `button_isr_handler` and returns the accepted
ones, in order. An edge is given by the number `c` of ticks since boot at which it
arrives; the handler reads the 32-bit tick counter, that is `c % 2 ^ 32`. -/
def acceptedEdges (P : Nat) : List Nat → Sys → List Nat
  | [], _ => []
  | c :: cs, s =>
    if isr_accepts P (c % U32) s then
      c :: acceptedEdges P cs (button_isr_handler P (c % U32) s)
    else acceptedEdges P cs (button_isr_handler P (c % U32) s)

/-- Number of events of the trace satisfying `p`. -/
def countEv (p : Ev → Bool) (s : Sys) : Nat :=
  (s.trace.filter (fun e => p e.2)).length

/-- The event is an acceptance by the handler. -/
def isAccept : Ev → Bool
  | .accept _ => true
  | _ => false

/-- The event is a toggle of `isLampOn`. -/
def isToggle : Ev → Bool
  | .toggle => true
  | _ => false

/-- The event is the write `can_blink = 1` of `led2_task`. -/
def isBlinkOn : Ev → Bool
  | .blinkOn => true
  | _ => false

/-- The four statements of one pass of the loop of `led1_task`: when a signal is
pending they take it and handle it; when none is pending they leave the state
unchanged (the task stays blocked in `xSemaphoreTake`). -/
def handlingPass : List Action := [.led1, .led1, .led1, .led1]

/-- Scenarios A and B: from boot, an edge read at tick `c1`, the responder handling
it at once, then an edge read at tick `c2`, the responder handling it at once. -/
def twoEdges (P c1 c2 : Nat) : Sys :=
  exec P ([.isr c1] ++ handlingPass ++ [.isr c2] ++ handlingPass) init

/-- Runs the tasks with zero latency at the current instant: while `led1_task` (the
higher priority) can execute a statement it does, otherwise `led2_task` does unless
it is blocked in a delay. Stops when both are blocked or the fuel is used up. -/
def settle : Nat → Sys → Sys
  | 0, s => s
  | n + 1, s =>
    if led1_ready s then settle n (led1_task s)
    else if led2_blocked s then s
    else settle n (led2_task s)

/-- Lets the clock advance to the expiry of the pending delay of `led2_task`. -/
def awaken (s : Sys) : Sys := { s with time := max s.time s.wake2 }

/-- One scheduling round without interrupts: the clock advances to the next expiry
and the tasks run until both are blocked again. -/
def round (s : Sys) : Sys := settle 16 (awaken s)

/-- The state after `k` scheduling rounds without interrupts. -/
def rounds : Nat → Sys → Sys
  | 0, s => s
  | k + 1, s => rounds k (round s)

/-- Both tasks are blocked, `led1_task` in `xSemaphoreTake` and `led2_task` in one of
its 500 ms delays, and `can_blink` is 1: the animator is free-running. -/
def Blinking (s : Sys) : Prop :=
  s.pc1 = .take ∧ s.buttonSemaphore = false ∧ s.can_blink = 1 ∧
    (s.pc2 = .wait500a ∨ s.pc2 = .wait500b) ∧ s.time < s.wake2

/-- Both tasks are blocked, `led1_task` in `xSemaphoreTake` and `led2_task` in one of
its delays, and `can_blink` is 0. -/
def Suspended (s : Sys) : Prop :=
  s.pc1 = .take ∧ s.buttonSemaphore = false ∧ s.can_blink = 0 ∧
    (s.pc2 = .wait500a ∨ s.pc2 = .wait500b ∨ s.pc2 = .wait2000) ∧ s.time < s.wake2

/-- The instant at which the cooldown of a suspended animator ends when no further
event arrives: the expiry of the cooldown it is in, or 2000 ms after the next check. -/
def resumeAt (s : Sys) : Nat :=
  match s.pc2 with
  | .wait500a => s.wake2 + 2500
  | .wait500b => s.wake2 + 2000
  | _ => s.wake2

/-- The zero-latency schedule of a suspended animator: during the rounds `0..k`
`can_blink` stays 0, the clock advances but stays below `resumeAt x`, `led2_task` never
writes `can_blink` and its only output writes are low; round `k + 1` happens at
`resumeAt x`, where `led2_task` sets `can_blink` to 1 and drives its output high, and
leaves the animator free-running with its next expiry 500 ms later. -/
def ResumesAfter (x : Sys) (k : Nat) : Prop :=
  (∀ j ≤ k, (rounds j x).can_blink = 0 ∧ (rounds j x).time < resumeAt x ∧
      (rounds j x).time < (rounds (j + 1) x).time ∧
      countEv isBlinkOn (rounds j x) = countEv isBlinkOn x ∧
      (∀ e ∈ (rounds j x).trace, e ∈ x.trace ∨ e.2 = Ev.led2 0)) ∧
    Blinking (rounds (k + 1) x) ∧ (rounds (k + 1) x).time = resumeAt x ∧
    (rounds (k + 1) x).wake2 = resumeAt x + 500 ∧
    (rounds (k + 1) x).trace =
      (rounds k x).trace ++ [(resumeAt x, Ev.blinkOn), (resumeAt x, Ev.led2 1)] ∧
    (rounds (k + 1) x).pc2 = .wait500a

/-- The instant at which `led2_task` next evaluates the condition of line 109 when it
runs with zero latency from the program point it is at: the rest of its blink cycle. -/
def nextCheck (s : Sys) : Nat :=
  match s.pc2 with
  | .check | .delay2000 | .wait2000 | .enable => s.time
  | .high | .delay500a => s.time + 1000
  | .wait500a => max s.time s.wake2 + 500
  | .low | .delay500b => s.time + 500
  | .wait500b => max s.time s.wake2

/-- The instant at which the cooldown ends that follows an event accepted in state `s`,
with zero latency and no further event: the expiry of the cooldown in progress if
there is one, otherwise 2000 ms after the next check of `can_blink`. -/
def cooldownEnd (s : Sys) : Nat :=
  if s.pc2 = .wait2000 then s.wake2 else nextCheck s + 2000

/-! ## Concrete runs -/

/-- From boot with a 1 ms tick and zero latency: the animator starts blinking, an edge
is accepted at 300 ms and handled at once. -/
def afterFirstEvent : Sys :=
  settle 16 (button_isr_handler 1 300 (act 1 (.elapse 300) (settle 16 init)))

/-- Two rounds later, at 1000 ms, the animator has found `can_blink` cleared and is in
the cooldown that expires at 3000 ms; then, at 2900 ms, a second edge is accepted and
handled at once; then the cooldown expires. -/
def lateEventRun : Sys :=
  round (settle 16 (button_isr_handler 1 2900 (act 1 (.elapse 1900) (rounds 2 afterFirstEvent))))

/-- A state in the middle of a high phase, the clock counting from the instant the next
edge arrives: `led2_task` drove its output high 200 ms ago and is blocked in the delay
of line 117 for another 300 ms; the responder is waiting. -/
def midHighPhase : Sys :=
  { init with led2_level := 1, pc2 := .wait500a, wake2 := 300 }

/-- The edge arrives in `midHighPhase` while the tick counter reads 5000 (1 ms tick), is
accepted and handled at once. -/
def midHighEvent : Sys := settle 16 (button_isr_handler 1 5000 midHighPhase)

/-- Feeds a sequence of raw edges to `button_isr_handler`, as `acceptedEdges` does, and
returns the final state. -/
def feedEdges (P : Nat) : List Nat → Sys → Sys
  | [], s => s
  | c :: cs, s => feedEdges P cs (button_isr_handler P (c % U32) s)

/-- The event is a write to the LED1 output. -/
def isLed1Write : Ev → Bool
  | .led1 _ => true
  | _ => false

/-- The event is a write to the LED2 output. -/
def isLed2Write : Ev → Bool
  | .led2 _ => true
  | _ => false

/-- No step of the execution is a return of `xSemaphoreTake`: every `led1` action
happens at a program point of `led1_task` other than `take`. -/
def noTake (P : Nat) : List Action → Sys → Bool
  | [], _ => true
  | a :: as, s => (decide (a ≠ .led1) || decide (s.pc1 ≠ .take)) && noTake P as (act P a s)

/-- The output writes of the first `k` cycles of a square wave that starts at `t0`:
high at `t0 + 1000 * i` and low at `t0 + 1000 * i + 500` for `i < k`. -/
def squareWave (t0 : Nat) : Nat → List (Nat × Ev)
  | 0 => []
  | k + 1 => squareWave t0 k ++ [(t0 + 1000 * k, Ev.led2 1), (t0 + 1000 * k + 500, Ev.led2 0)]

/-- From boot with a 1 ms tick and zero latency, after `afterFirstEvent`: at 1000 ms the
animator has entered the cooldown that expires at 3000 ms; at 2900 ms, during that
cooldown, a second edge is accepted and handled at once. -/
def eventInCooldown : Sys :=
  settle 16 (button_isr_handler 1 2900 (act 1 (.elapse 1900) (rounds 2 afterFirstEvent)))

/-! ## Start-up -/

/-- The macro `LED1_PIN` (line 12), `GPIO_NUM_2`. -/
def LED1_PIN : Nat := 2

/-- The macro `LED2_PIN` (line 13), `GPIO_NUM_4`. -/
def LED2_PIN : Nat := 4

/-- The macro `BUTTON_PIN` (line 14), `GPIO_NUM_25`. -/
def BUTTON_PIN : Nat := 25

/-- The two task functions handed to `xTaskCreate`. -/
inductive TaskFn where
  | led1  -- `led1_task`, the responder
  | led2  -- `led2_task`, the animator
  deriving DecidableEq

/-- The four messages printed by `app_main`. -/
inductive Msg where
  | semaphoreFailed  -- line 140, "Failed to create semaphore."
  | isrFailed        -- line 147, "Failed to set ISR handler."
  | led1Failed       -- line 156, "Failed to create LED1 Task."
  | led2Failed       -- line 161, "Failed to create LED2 Task."
  deriving DecidableEq

/-- Calls to the platform made during start-up. The last two are the calls that would
undo the set-up; they are listed so that their absence can be stated. -/
inductive Call where
  | gpio_reset_pin (pin : Nat)
  | gpio_set_direction (pin : Nat) (output : Bool)
  | gpio_set_pull_mode (pin : Nat)
  | xSemaphoreCreateBinary
  | gpio_install_isr_service
  | gpio_isr_handler_add (pin : Nat)
  | gpio_set_intr_type (pin : Nat)
  | xTaskCreate (task : TaskFn) (priority : Nat)
  | printf (msg : Msg)
  | gpio_isr_handler_remove (pin : Nat)
  | vSemaphoreDelete
  deriving DecidableEq

/-- What the fallible start-up calls return. -/
structure Startup where
  /-- Whether `xSemaphoreCreateBinary()` returned a handle other than `NULL`. -/
  semaphore : Bool
  /-- The value returned by `gpio_isr_handler_add`. -/
  isrAdd : Int
  /-- The value returned by `xTaskCreate` for `led1_task`. -/
  led1Create : Int
  /-- The value returned by `xTaskCreate` for `led2_task`. -/
  led2Create : Int
  deriving DecidableEq

/-- Lines 124-135 of `app_main`: configuration of the three pins. -/
def configurePins : List Call :=
  [.gpio_reset_pin LED1_PIN, .gpio_set_direction LED1_PIN true,
   .gpio_reset_pin LED2_PIN, .gpio_set_direction LED2_PIN true,
   .gpio_reset_pin BUTTON_PIN, .gpio_set_direction BUTTON_PIN false,
   .gpio_set_pull_mode BUTTON_PIN]

/-- The function `app_main` of the RTOS variant (lines 123-163): the calls it makes, in
order, for given results of the fallible calls. `ESP_OK` and `pdPASS` are the
constants of the platform headers the results are compared with. -/
def app_main (ESP_OK pdPASS : Int) (o : Startup) : List Call :=
  if o.semaphore = false then
    configurePins ++ [.xSemaphoreCreateBinary, .printf .semaphoreFailed]
  else if o.isrAdd ≠ ESP_OK then
    configurePins ++ [.xSemaphoreCreateBinary, .gpio_install_isr_service,
      .gpio_isr_handler_add BUTTON_PIN, .printf .isrFailed]
  else
    configurePins ++ [.xSemaphoreCreateBinary, .gpio_install_isr_service,
      .gpio_isr_handler_add BUTTON_PIN, .gpio_set_intr_type BUTTON_PIN]
    ++ [.xTaskCreate .led1 10]
    ++ (if o.led1Create ≠ pdPASS then [.printf .led1Failed] else [])
    ++ [.xTaskCreate .led2 5]
    ++ (if o.led2Create ≠ pdPASS then [.printf .led2Failed] else [])

/-- The task creations among a list of calls: task function and priority, in order. -/
def taskCreations : List Call → List (TaskFn × Nat)
  | [] => []
  | .xTaskCreate t p :: cs => (t, p) :: taskCreations cs
  | _ :: cs => taskCreations cs

/-- The tasks that exist after `app_main` has returned: those for which `xTaskCreate`
was called and returned `pdPASS`. -/
def startedTasks (ESP_OK pdPASS : Int) (o : Startup) : List TaskFn :=
  ((taskCreations (app_main ESP_OK pdPASS o)).filter
    (fun tp => match tp.1 with
      | .led1 => decide (o.led1Create = pdPASS)
      | .led2 => decide (o.led2Create = pdPASS))).map (fun tp => tp.1)

/-! ## The debounce gate -/

theorem current_time_lt (P tick : Nat) : current_time P tick < U32 := by
  unfold current_time U32
  omega

theorem current_time_mod (P c : Nat) : current_time P (c % U32) = current_time P c := by
  unfold current_time
  rw [Nat.mod_mul_mod]

theorem handler_of_accept {P tick : Nat} {s : Sys} (h : isr_accepts P tick s = true) :
    button_isr_handler P tick s =
      { s with
        last_interrupt_time := current_time P tick
        can_blink := 0
        buttonSemaphore := true
        trace := s.trace ++ [(s.time, Ev.accept s.buttonSemaphore)] } := by
  simp [button_isr_handler, h, xSemaphoreGiveFromISR]

theorem handler_of_reject {P tick : Nat} {s : Sys} (h : isr_accepts P tick s = false) :
    button_isr_handler P tick s = s := by
  simp [button_isr_handler, h]

theorem sub32_int (a b : Nat) (ha : a < U32) (hb : b < U32) :
    ((sub32 a b : Nat) : Int) = ((a : Int) - (b : Int)) % 4294967296 := by
  unfold sub32 U32 at *
  omega

/-- C1. The handler accepts an edge iff `(now - L) mod 2^32 > 200`, where `now` is the
current timestamp and `L` the stored `last_interrupt_time`; on acceptance
`last_interrupt_time` becomes `now`, on rejection it stays `L`; an edge exactly 200 ms
after `L` is rejected and one 201 ms after `L` is accepted. -/
theorem debounce_gate_rule (P tick : Nat) (s : Sys) (hL : s.last_interrupt_time < U32) :
    (isr_accepts P tick s = true ↔
      200 < ((current_time P tick : Int) - (s.last_interrupt_time : Int)) % 4294967296) ∧
    (isr_accepts P tick s = true →
      (button_isr_handler P tick s).last_interrupt_time = current_time P tick) ∧
    (isr_accepts P tick s = false →
      (button_isr_handler P tick s).last_interrupt_time = s.last_interrupt_time) ∧
    (current_time P tick = (s.last_interrupt_time + 200) % U32 →
      isr_accepts P tick s = false) ∧
    (current_time P tick = (s.last_interrupt_time + 201) % U32 →
      isr_accepts P tick s = true) := by
  have hnow := current_time_lt P tick
  have hint := sub32_int _ _ hnow hL
  refine ⟨?_, ?_, ?_, ?_, ?_⟩
  · simp only [isr_accepts, DEBOUNCE_TIME_MS, decide_eq_true_eq]
    rw [← hint]
    omega
  · intro h
    rw [handler_of_accept h]
  · intro h
    rw [handler_of_reject h]
  · intro h
    simp only [isr_accepts, DEBOUNCE_TIME_MS, decide_eq_false_iff_not, h]
    unfold sub32 U32 at *
    omega
  · intro h
    simp only [isr_accepts, DEBOUNCE_TIME_MS, decide_eq_true_eq, h]
    unfold sub32 U32 at *
    omega

/-- Witness for C1: from the state at boot, with a 1 ms tick, the edge read at tick 201. -/
theorem debounce_gate_rule_witness :
    (isr_accepts 1 201 init = true ↔
      200 < ((current_time 1 201 : Int) - (init.last_interrupt_time : Int)) % 4294967296) ∧
    (isr_accepts 1 201 init = true →
      (button_isr_handler 1 201 init).last_interrupt_time = current_time 1 201) ∧
    (isr_accepts 1 201 init = false →
      (button_isr_handler 1 201 init).last_interrupt_time = init.last_interrupt_time) ∧
    (current_time 1 201 = (init.last_interrupt_time + 200) % U32 →
      isr_accepts 1 201 init = false) ∧
    (current_time 1 201 = (init.last_interrupt_time + 201) % U32 →
      isr_accepts 1 201 init = true) :=
  debounce_gate_rule 1 201 init (by decide)

theorem boot_accepts_iff (P tick : Nat) :
    isr_accepts P tick init = true ↔ 200 < current_time P tick := by
  have hnow := current_time_lt P tick
  simp only [isr_accepts, DEBOUNCE_TIME_MS, decide_eq_true_eq, init]
  unfold sub32 U32 at *
  omega

theorem boot_rejects (P tick : Nat) (h : current_time P tick ≤ 200) :
    isr_accepts P tick init = false := by
  have := (boot_accepts_iff P tick).not
  simp only [Nat.not_lt.mpr h, not_false_eq_true, iff_true] at this
  simpa using this

/-- C2 (as stated, refuted). At boot `last_interrupt_time` is 0, so a first edge whose
timestamp is 0, or 200, is rejected. -/
theorem first_edge_rejected_at_boot :
    isr_accepts 1 0 init = false ∧ isr_accepts 1 200 init = false ∧
      button_isr_handler 1 0 init = init := by
  decide

/-- C2 (amended). From the state at boot the first edge is accepted iff its timestamp
is greater than 200; at every timestamp `now <= 200` it is rejected and the handler
leaves the state as it is. -/
theorem first_edge_accepted_iff (P tick : Nat) :
    (isr_accepts P tick init = true ↔ 200 < current_time P tick) ∧
    (current_time P tick ≤ 200 →
      isr_accepts P tick init = false ∧ button_isr_handler P tick init = init) :=
  ⟨boot_accepts_iff P tick,
    fun h => ⟨boot_rejects P tick h, handler_of_reject (boot_rejects P tick h)⟩⟩

/-- Witness for C2 (amended): with a 1 ms tick a first edge at timestamp 100 is
rejected and one at timestamp 201 is accepted. -/
theorem first_edge_accepted_iff_witness :
    current_time 1 100 ≤ 200 ∧ 200 < current_time 1 201 ∧
    button_isr_handler 1 100 init = init ∧ isr_accepts 1 201 init = true :=
  ⟨by decide, by decide, ((first_edge_accepted_iff 1 100).2 (by decide)).2,
    (first_edge_accepted_iff 1 201).1.mpr (by decide)⟩

theorem elapsed_le_true_elapsed (P c0 c : Nat) (hle : c0 ≤ c)
    (h : 200 < sub32 (current_time P c) (current_time P c0)) :
    200 < c * P - c0 * P := by
  have hmul : c0 * P ≤ c * P := Nat.mul_le_mul_right P hle
  unfold sub32 current_time U32 at h
  generalize c * P = x at *
  generalize c0 * P = y at *
  omega

theorem accepted_after_last (P : Nat) (cs : List Nat) :
    ∀ (c0 : Nat) (s : Sys), s.last_interrupt_time = current_time P c0 →
      (∀ c ∈ cs, c0 ≤ c) → cs.Pairwise (fun a b => a ≤ b) →
      (∀ b ∈ acceptedEdges P cs s, 200 < b * P - c0 * P) ∧
      (acceptedEdges P cs s).Pairwise (fun a b => 200 < b * P - a * P) := by
  induction cs with
  | nil => intro c0 s _ _ _; simp [acceptedEdges]
  | cons c cs ih =>
    intro c0 s hs hc0 hsorted
    rw [List.pairwise_cons] at hsorted
    have hc0c : c0 ≤ c := hc0 c (List.mem_cons_self _ _)
    have hrest : ∀ x ∈ cs, c0 ≤ x := fun x hx => hc0 x (List.mem_cons_of_mem _ hx)
    by_cases hacc : isr_accepts P (c % U32) s = true
    · have hgap : 200 < c * P - c0 * P := by
        apply elapsed_le_true_elapsed P c0 c hc0c
        have := hacc
        simp only [isr_accepts, DEBOUNCE_TIME_MS, decide_eq_true_eq, current_time_mod, hs] at this
        exact this
      have hlast : (button_isr_handler P (c % U32) s).last_interrupt_time = current_time P c := by
        rw [handler_of_accept hacc, current_time_mod]
      obtain ⟨h1, h2⟩ := ih c _ hlast hsorted.1 hsorted.2
      have hmul : c0 * P ≤ c * P := Nat.mul_le_mul_right P hc0c
      simp only [acceptedEdges, hacc, if_true]
      refine ⟨?_, ?_⟩
      · intro b hb
        rcases List.mem_cons.mp hb with rfl | hb
        · exact hgap
        · have := h1 b hb
          omega
      · exact List.pairwise_cons.mpr ⟨h1, h2⟩
    · have hrej : isr_accepts P (c % U32) s = false := by simpa using hacc
      simp only [acceptedEdges, hrej, handler_of_reject hrej]
      simpa using ih c0 s hs hrest hsorted.2

/-- C3. For every initial gate state and every sequence of raw edges with
non-decreasing arrival times (in ticks since boot, the handler reading the tick
counter modulo `2^32`), any two accepted edges are more than 200 ms of elapsed time
apart (so never closer together than 200 ms), whether or not the 32-bit counter wraps
between them. -/
theorem accepted_edges_spacing (P : Nat) (cs : List Nat) (s : Sys)
    (hsorted : cs.Pairwise (fun a b => a ≤ b)) :
    (acceptedEdges P cs s).Pairwise (fun a b => 200 < b * P - a * P) := by
  induction cs generalizing s with
  | nil => simp [acceptedEdges]
  | cons c cs ih =>
    rw [List.pairwise_cons] at hsorted
    by_cases hacc : isr_accepts P (c % U32) s = true
    · have hlast : (button_isr_handler P (c % U32) s).last_interrupt_time = current_time P c := by
        rw [handler_of_accept hacc, current_time_mod]
      obtain ⟨h1, h2⟩ := accepted_after_last P cs c _ hlast hsorted.1 hsorted.2
      simp only [acceptedEdges, hacc, if_true]
      exact List.pairwise_cons.mpr ⟨h1, h2⟩
    · have hrej : isr_accepts P (c % U32) s = false := by simpa using hacc
      simp only [acceptedEdges, hrej, handler_of_reject hrej]
      simpa using ih s hsorted.2

/-- Witness for C3: three edges around the wrap of a 1 ms tick counter, 100 ms before
the wrap, 50 ms after it and 150 ms after it; the first and the third are accepted. -/
theorem accepted_edges_spacing_witness :
    [4294967196, 4294967346, 4294967446].Pairwise (fun a b => a ≤ b) ∧
    (acceptedEdges 1 [4294967196, 4294967346, 4294967446] init).Pairwise
      (fun a b => 200 < b * 1 - a * 1) :=
  ⟨by decide, accepted_edges_spacing 1 [4294967196, 4294967346, 4294967446] init (by decide)⟩

/-- C4. After an edge accepted at timestamp `t1`, an edge whose timestamp is
`(t1 + d) mod 2^32` with `d <= 200` (150 in Scenario D) is rejected, also when the
sum wraps to a value numerically smaller than `t1`. -/
theorem wraparound_rejects (P c1 c2 d : Nat) (s : Sys)
    (hacc : isr_accepts P c1 s = true) (hd : d ≤ 200)
    (h2 : current_time P c2 = (current_time P c1 + d) % U32) :
    isr_accepts P c2 (button_isr_handler P c1 s) = false ∧
    button_isr_handler P c2 (button_isr_handler P c1 s) = button_isr_handler P c1 s := by
  have hrej : isr_accepts P c2 (button_isr_handler P c1 s) = false := by
    have h1 := current_time_lt P c1
    rw [handler_of_accept hacc]
    simp only [isr_accepts, DEBOUNCE_TIME_MS, decide_eq_false_iff_not, h2]
    unfold sub32 U32 at *
    omega
  exact ⟨hrej, handler_of_reject hrej⟩

/-- Witness for C4 (Scenario D): a 1 ms tick, first edge at `2^32 - 50`, second edge
150 ms later at the wrapped timestamp 100. -/
theorem wraparound_rejects_witness :
    isr_accepts 1 4294967246 init = true ∧ 150 ≤ 200 ∧
    current_time 1 100 = (current_time 1 4294967246 + 150) % U32 ∧
    current_time 1 100 < current_time 1 4294967246 ∧
    isr_accepts 1 100 (button_isr_handler 1 4294967246 init) = false ∧
    button_isr_handler 1 100 (button_isr_handler 1 4294967246 init) =
      button_isr_handler 1 4294967246 init :=
  ⟨by decide, by decide, by decide, by decide,
    wraparound_rejects 1 4294967246 100 150 init (by decide) (by decide) (by decide)⟩

/-! ## The interrupt path -/

/-- C9. Whenever the handler accepts the edge, afterwards `can_blink` is 0, the
semaphore is signaled (also when it already was), `last_interrupt_time` is the current
timestamp, and `isLampOn`, both LED outputs, both program points and the clock are
unchanged. -/
theorem isr_accept_effects (P tick : Nat) (s : Sys) (hacc : isr_accepts P tick s = true) :
    (button_isr_handler P tick s).can_blink = 0 ∧
    (button_isr_handler P tick s).buttonSemaphore = true ∧
    (button_isr_handler P tick s).last_interrupt_time = current_time P tick ∧
    (button_isr_handler P tick s).led1_level = s.led1_level ∧
    (button_isr_handler P tick s).led2_level = s.led2_level ∧
    (button_isr_handler P tick s).isLampOn = s.isLampOn ∧
    (button_isr_handler P tick s).pc1 = s.pc1 ∧
    (button_isr_handler P tick s).pc2 = s.pc2 ∧
    (button_isr_handler P tick s).time = s.time := by
  rw [handler_of_accept hacc]
  simp

/-- Witness for C9: an edge at timestamp 500 accepted while the semaphore is already
signaled. -/
theorem isr_accept_effects_witness :
    isr_accepts 1 500 { init with buttonSemaphore := true } = true ∧
    (button_isr_handler 1 500 { init with buttonSemaphore := true }).buttonSemaphore = true :=
  ⟨by decide, (isr_accept_effects 1 500 { init with buttonSemaphore := true } (by decide)).2.1⟩

/-- C10. Whenever the elapsed time modulo `2^32` is at most 200 ms the handler rejects
the edge and leaves the whole state as it was: no field changes and no signal is
given. -/
theorem isr_reject_noop (P tick : Nat) (s : Sys)
    (hrej : sub32 (current_time P tick) s.last_interrupt_time ≤ 200) :
    isr_accepts P tick s = false ∧ button_isr_handler P tick s = s ∧
    countEv isAccept (button_isr_handler P tick s) = countEv isAccept s := by
  have h : isr_accepts P tick s = false := by
    simp only [isr_accepts, DEBOUNCE_TIME_MS, decide_eq_false_iff_not]
    omega
  exact ⟨h, handler_of_reject h, by rw [handler_of_reject h]⟩

/-- Witness for C10: an edge 150 ms after one accepted at timestamp 300, with the
signal of the first one still pending. -/
theorem isr_reject_noop_witness :
    sub32 (current_time 1 450) (button_isr_handler 1 300 init).last_interrupt_time ≤ 200 ∧
    button_isr_handler 1 450 (button_isr_handler 1 300 init) = button_isr_handler 1 300 init :=
  ⟨by decide, (isr_reject_noop 1 450 (button_isr_handler 1 300 init) (by decide)).2.1⟩

/-! ## Scenarios A and B -/

theorem countEv_append (p : Ev → Bool) (tr : List (Nat × Ev)) (e : Nat × Ev) :
    (List.filter (fun e => p e.2) (tr ++ [e])).length =
      (List.filter (fun e => p e.2) tr).length + (if p e.2 then 1 else 0) := by
  rw [List.filter_append, List.length_append]
  by_cases h : p e.2 <;> simp [List.filter, h]

theorem exec_append (P : Nat) (as bs : List Action) (s : Sys) :
    exec P (as ++ bs) s = exec P bs (exec P as s) := by
  induction as generalizing s with
  | nil => rfl
  | cons a as ih => simp [exec, ih]

theorem pass_blocked (P : Nat) (s : Sys) (h1 : s.pc1 = .take) (h2 : s.buttonSemaphore = false) :
    exec P handlingPass s = s := by
  simp [exec, handlingPass, act, led1_task, h1, h2, xSemaphoreTake]

theorem pass_signaled (P : Nat) (s : Sys) (h1 : s.pc1 = .take) (h2 : s.buttonSemaphore = true) :
    exec P handlingPass s =
      { s with
        buttonSemaphore := false
        isLampOn := lnot s.isLampOn
        led1_level := lnot s.isLampOn
        can_blink := 0
        trace := s.trace ++
          [(s.time, Ev.taken), (s.time, Ev.toggle), (s.time, Ev.led1 (lnot s.isLampOn))] } := by
  obtain ⟨time, last, cb, sem, lamp, l1, l2, pc1, pc2, wake, tr⟩ := s
  simp only at h1 h2
  subst h1 h2
  simp [exec, handlingPass, act, led1_task, xSemaphoreTake]

/-- C5 (as stated, refuted). From boot the edge at timestamp 0 is rejected: with edges
at 0 and 100 no edge is accepted and the responder never toggles; with edges at 0 and
250 one edge is accepted and the responder toggles once, ending with its output on. -/
theorem two_edges_from_boot_counterexample :
    isr_accepts 1 0 init = false ∧
    countEv isAccept (twoEdges 1 0 100) = 0 ∧ countEv isToggle (twoEdges 1 0 100) = 0 ∧
    countEv isAccept (twoEdges 1 0 250) = 1 ∧ countEv isToggle (twoEdges 1 0 250) = 1 ∧
    (twoEdges 1 0 250).isLampOn = 1 ∧ (twoEdges 1 0 250).led1_level = 1 := by
  decide

/-- C5 (amended). From boot, with the responder handling every signal at once, for
edges at timestamps 0 and `d`: the edge at 0 is rejected; if `d <= 200` no edge is
accepted, the responder never toggles and its output stays off; if `d > 200` exactly
the edge at `d` is accepted and the responder toggles exactly once, ending with its
output on. -/
theorem two_edges_from_boot (P c1 c2 : Nat) (h1 : current_time P c1 = 0) :
    isr_accepts P c1 init = false ∧
    (current_time P c2 ≤ 200 →
      twoEdges P c1 c2 = init ∧
      countEv isAccept (twoEdges P c1 c2) = 0 ∧ countEv isToggle (twoEdges P c1 c2) = 0 ∧
      (twoEdges P c1 c2).isLampOn = 0 ∧ (twoEdges P c1 c2).led1_level = 0) ∧
    (200 < current_time P c2 →
      isr_accepts P c2 init = true ∧
      countEv isAccept (twoEdges P c1 c2) = 1 ∧ countEv isToggle (twoEdges P c1 c2) = 1 ∧
      (twoEdges P c1 c2).isLampOn = 1 ∧ (twoEdges P c1 c2).led1_level = 1 ∧
      (twoEdges P c1 c2).pc1 = .take ∧ (twoEdges P c1 c2).buttonSemaphore = false) := by
  have hrej1 : isr_accepts P c1 init = false := boot_rejects P c1 (by omega)
  have hstart : twoEdges P c1 c2 = exec P handlingPass (button_isr_handler P c2 init) := by
    unfold twoEdges
    have e1 : exec P [Action.isr c1] init = init := by
      simp only [exec, act]
      exact handler_of_reject hrej1
    have e2 : exec P [Action.isr c2] init = button_isr_handler P c2 init := by
      simp only [exec, act]
    rw [exec_append, exec_append, exec_append, e1, pass_blocked P init rfl rfl, e2]
  refine ⟨hrej1, ?_, ?_⟩
  · intro hd
    have hrej2 : isr_accepts P c2 init = false := boot_rejects P c2 hd
    rw [hstart, handler_of_reject hrej2, pass_blocked P init rfl rfl]
    decide
  · intro hd
    have hacc2 : isr_accepts P c2 init = true := (boot_accepts_iff P c2).mpr hd
    rw [hstart, handler_of_accept hacc2, pass_signaled P _ rfl rfl]
    refine ⟨hacc2, ?_⟩
    simp [init, countEv, lnot, isAccept, isToggle]

/-- Witness for C5 (amended): a 1 ms tick and edges at 0 and 250 (Scenario B). -/
theorem two_edges_from_boot_witness :
    current_time 1 0 = 0 ∧ 200 < current_time 1 250 ∧
    countEv isAccept (twoEdges 1 0 250) = 1 ∧ countEv isToggle (twoEdges 1 0 250) = 1 :=
  ⟨by decide, by decide,
    ((two_edges_from_boot 1 0 250 (by decide)).2.2 (by decide)).2.1,
    ((two_edges_from_boot 1 0 250 (by decide)).2.2 (by decide)).2.2.1⟩

/-! ## Toggles and accepted edges -/

theorem round_high_phase (s : Sys) (h1 : s.pc1 = .take) (h2 : s.buttonSemaphore = false)
    (h3 : s.pc2 = .wait500a) (h4 : s.time < s.wake2) :
    round s = { s with time := s.wake2, led2_level := 0, pc2 := .wait500b,
                       wake2 := s.wake2 + 500,
                       trace := s.trace ++ [(s.wake2, Ev.led2 0)] } := by
  obtain ⟨time, last, cb, sem, lamp, l1, l2, pc1, pc2, wake, tr⟩ := s
  simp only at h1 h2 h3 h4
  subst h1 h2 h3
  have hmax : max time wake = wake := by omega
  simp [round, awaken, settle, led1_ready, led2_blocked, led2_task, vTaskDelay, hmax]

theorem round_low_phase_suspended (s : Sys) (h1 : s.pc1 = .take)
    (h2 : s.buttonSemaphore = false) (h3 : s.pc2 = .wait500b) (h4 : s.time < s.wake2)
    (h5 : s.can_blink = 0) :
    round s = { s with time := s.wake2, pc2 := .wait2000, wake2 := s.wake2 + 2000 } := by
  obtain ⟨time, last, cb, sem, lamp, l1, l2, pc1, pc2, wake, tr⟩ := s
  simp only at h1 h2 h3 h4 h5
  subst h1 h2 h3 h5
  have hmax : max time wake = wake := by omega
  simp [round, awaken, settle, led1_ready, led2_blocked, led2_task, vTaskDelay, hmax]

theorem round_low_phase_blinking (s : Sys) (h1 : s.pc1 = .take)
    (h2 : s.buttonSemaphore = false) (h3 : s.pc2 = .wait500b) (h4 : s.time < s.wake2)
    (h5 : s.can_blink ≠ 0) :
    round s = { s with time := s.wake2, led2_level := 1, pc2 := .wait500a,
                       wake2 := s.wake2 + 500,
                       trace := s.trace ++ [(s.wake2, Ev.led2 1)] } := by
  obtain ⟨time, last, cb, sem, lamp, l1, l2, pc1, pc2, wake, tr⟩ := s
  simp only at h1 h2 h3 h4 h5
  subst h1 h2 h3
  have hmax : max time wake = wake := by omega
  simp [round, awaken, settle, led1_ready, led2_blocked, led2_task, vTaskDelay, hmax, h5]

theorem round_cooldown (s : Sys) (h1 : s.pc1 = .take) (h2 : s.buttonSemaphore = false)
    (h3 : s.pc2 = .wait2000) (h4 : s.time < s.wake2) :
    round s = { s with time := s.wake2, can_blink := 1, led2_level := 1, pc2 := .wait500a,
                       wake2 := s.wake2 + 500,
                       trace := s.trace ++ [(s.wake2, Ev.blinkOn), (s.wake2, Ev.led2 1)] } := by
  obtain ⟨time, last, cb, sem, lamp, l1, l2, pc1, pc2, wake, tr⟩ := s
  simp only at h1 h2 h3 h4
  subst h1 h2 h3
  have hmax : max time wake = wake := by omega
  simp [round, awaken, settle, led1_ready, led2_blocked, led2_task, vTaskDelay, hmax]

theorem rounds_add (j k : Nat) (s : Sys) : rounds (j + k) s = rounds j (rounds k s) := by
  induction k generalizing s with
  | zero => rfl
  | succ k ih => rw [← Nat.add_assoc]; exact ih (round s)

theorem rounds_succ (j : Nat) (s : Sys) : rounds (j + 1) s = round (rounds j s) := by
  rw [Nat.add_comm, rounds_add]; rfl

theorem blinking_round (s : Sys) (h : Blinking s) :
    Blinking (round s) ∧ (round s).time = s.wake2 ∧ (round s).wake2 = s.wake2 + 500 ∧
    countEv isBlinkOn (round s) = countEv isBlinkOn s ∧
    (∀ e ∈ (round s).trace, e ∈ s.trace ∨ e.1 = s.wake2) := by
  obtain ⟨h1, h2, h3, h4, h5⟩ := h
  rcases h4 with h4 | h4
  · rw [round_high_phase s h1 h2 h4 h5]
    simp only [Blinking, countEv, countEv_append, isBlinkOn, h1, h2, h3]
    simp
    intro a b hab
    rcases hab with hab | hab
    · exact Or.inl hab
    · exact Or.inr hab.1
  · rw [round_low_phase_blinking s h1 h2 h4 h5 (by omega)]
    simp only [Blinking, countEv, countEv_append, isBlinkOn, h1, h2, h3]
    simp
    intro a b hab
    rcases hab with hab | hab
    · exact Or.inl hab
    · exact Or.inr hab.1

theorem blinking_forever (j : Nat) (s : Sys) (h : Blinking s) :
    Blinking (rounds j s) ∧ s.wake2 ≤ (rounds j s).wake2 ∧ s.time ≤ (rounds j s).time ∧
    countEv isBlinkOn (rounds j s) = countEv isBlinkOn s ∧
    (∀ e ∈ (rounds j s).trace, e ∈ s.trace ∨ s.wake2 ≤ e.1) := by
  induction j generalizing s with
  | zero => exact ⟨h, Nat.le_refl _, Nat.le_refl _, rfl, fun e he => Or.inl he⟩
  | succ j ih =>
    obtain ⟨hb, ht, hw, hc, htr⟩ := blinking_round s h
    obtain ⟨ib, iw, it, ic, itr⟩ := ih (round s) hb
    have hlt : s.time < s.wake2 := h.2.2.2.2
    refine ⟨ib, by simp only [rounds]; omega, by simp only [rounds]; omega,
      by simp only [rounds]; omega, ?_⟩
    intro e he
    rcases itr e he with he | he
    · rcases htr e he with he | he
      · exact Or.inl he
      · exact Or.inr (by omega)
    · exact Or.inr (by omega)

theorem resumes_from_cooldown (x : Sys) (h1 : x.pc1 = .take) (h2 : x.buttonSemaphore = false)
    (h3 : x.can_blink = 0) (h4 : x.pc2 = .wait2000) (h5 : x.time < x.wake2) :
    ResumesAfter x 0 := by
  have hr : resumeAt x = x.wake2 := by simp [resumeAt, h4]
  have hround := round_cooldown x h1 h2 h4 h5
  refine ⟨?_, ?_, ?_, ?_, ?_, ?_⟩
  · intro j hj
    obtain rfl : j = 0 := by omega
    simp only [rounds, hround, hr]
    exact ⟨h3, h5, h5, trivial, fun e he => Or.inl he⟩
  · simp only [rounds, hround, Blinking, h1, h2]
    simp
  · simp only [rounds, hround, hr]
  · simp only [rounds, hround, hr]
  · simp only [rounds, hround, hr]
  · simp only [rounds, hround]

theorem resumes_step (x : Sys) (k : Nat) (h : ResumesAfter (round x) k)
    (hr : resumeAt (round x) = resumeAt x) (hflag : x.can_blink = 0)
    (ht : x.time < (round x).time) (hlt : x.time < resumeAt x)
    (hcount : countEv isBlinkOn (round x) = countEv isBlinkOn x)
    (htr : ∀ e ∈ (round x).trace, e ∈ x.trace ∨ e.2 = Ev.led2 0) :
    ResumesAfter x (k + 1) := by
  obtain ⟨hpre, hb, htime, hwake, htrace, hpc2⟩ := h
  refine ⟨?_, hb, by rw [← hr]; exact htime, by rw [← hr]; exact hwake,
    by rw [← hr]; exact htrace, hpc2⟩
  intro j hj
  cases j with
  | zero => exact ⟨hflag, hlt, ht, rfl, fun e he => Or.inl he⟩
  | succ j =>
    obtain ⟨p1, p2, p3, p4, p5⟩ := hpre j (by omega)
    refine ⟨p1, by rw [← hr]; exact p2, p3, by rw [← hcount]; exact p4, ?_⟩
    intro e he
    rcases p5 e he with he | he
    · exact htr e he
    · exact Or.inr he

theorem resumes_from_low (x : Sys) (h1 : x.pc1 = .take) (h2 : x.buttonSemaphore = false)
    (h3 : x.can_blink = 0) (h4 : x.pc2 = .wait500b) (h5 : x.time < x.wake2) :
    ResumesAfter x 1 := by
  have hround := round_low_phase_suspended x h1 h2 h4 h5 h3
  apply resumes_step x 0
  · apply resumes_from_cooldown <;> simp [hround, h1, h2, h3]
  · simp [hround, resumeAt, h4]
  · exact h3
  · simp [hround, h5]
  · simp only [resumeAt, h4]; omega
  · simp [hround, countEv]
  · intro e he
    left
    simpa [hround] using he

theorem resumes_from_high (x : Sys) (h1 : x.pc1 = .take) (h2 : x.buttonSemaphore = false)
    (h3 : x.can_blink = 0) (h4 : x.pc2 = .wait500a) (h5 : x.time < x.wake2) :
    ResumesAfter x 2 := by
  have hround := round_high_phase x h1 h2 h4 h5
  apply resumes_step x 1
  · apply resumes_from_low <;> simp [hround, h1, h2, h3]
  · simp [hround, resumeAt, h4]
  · exact h3
  · simp [hround, h5]
  · simp only [resumeAt, h4]; omega
  · simp [hround, countEv, countEv_append, isBlinkOn]
  · intro e he
    simp only [hround, List.mem_append, List.mem_singleton] at he
    rcases he with he | he
    · exact Or.inl he
    · exact Or.inr (by rw [he])

theorem suspended_resumes (x : Sys) (h : Suspended x) : ∃ k, ResumesAfter x k := by
  obtain ⟨h1, h2, h3, h4, h5⟩ := h
  rcases h4 with h4 | h4 | h4
  · exact ⟨2, resumes_from_high x h1 h2 h3 h4 h5⟩
  · exact ⟨1, resumes_from_low x h1 h2 h3 h4 h5⟩
  · exact ⟨0, resumes_from_cooldown x h1 h2 h3 h4 h5⟩

theorem led1_task_events (s : Sys) :
    (led1_task s).time = s.time ∧ ∀ e ∈ (led1_task s).trace, e ∈ s.trace ∨ e.1 = s.time := by
  obtain ⟨time, last, cb, sem, lamp, l1, l2, pc1, pc2, wake, tr⟩ := s
  cases pc1 <;> cases sem <;> simp [led1_task, xSemaphoreTake] <;> tauto

theorem led2_task_events (s : Sys) :
    (led2_task s).time = s.time ∧ ∀ e ∈ (led2_task s).trace, e ∈ s.trace ∨ e.1 = s.time := by
  obtain ⟨time, last, cb, sem, lamp, l1, l2, pc1, pc2, wake, tr⟩ := s
  cases pc2 <;> simp only [led2_task] <;> (try split) <;> simp <;> tauto

theorem settle_events (n : Nat) (s : Sys) :
    (settle n s).time = s.time ∧ ∀ e ∈ (settle n s).trace, e ∈ s.trace ∨ e.1 = s.time := by
  induction n generalizing s with
  | zero => exact ⟨rfl, fun e he => Or.inl he⟩
  | succ n ih =>
    simp only [settle]
    split
    · obtain ⟨h1, h2⟩ := led1_task_events s
      obtain ⟨i1, i2⟩ := ih (led1_task s)
      refine ⟨by rw [i1, h1], fun e he => ?_⟩
      rcases i2 e he with he | he
      · exact h2 e he
      · exact Or.inr (by rw [he, h1])
    · split
      · exact ⟨rfl, fun e he => Or.inl he⟩
      · obtain ⟨h1, h2⟩ := led2_task_events s
        obtain ⟨i1, i2⟩ := ih (led2_task s)
        refine ⟨by rw [i1, h1], fun e he => ?_⟩
        rcases i2 e he with he | he
        · exact h2 e he
        · exact Or.inr (by rw [he, h1])

set_option maxHeartbeats 1000000 in
theorem settle_after_accept (u : Sys) (hflag : u.can_blink = 0)
    (hsem : u.buttonSemaphore = true) (hpc : u.pc2 ≠ .enable)
    (hw : u.pc2 = .wait2000 → u.time < u.wake2) :
    Suspended (settle 16 u) ∧ resumeAt (settle 16 u) = cooldownEnd u ∧
    countEv isBlinkOn (settle 16 u) = countEv isBlinkOn u := by
  obtain ⟨time, last, cb, sem, lamp, l1, l2, pc1, pc2, wake, tr⟩ := u
  simp only at hflag hsem hpc hw
  subst hflag hsem
  by_cases hwake : wake ≤ time
  · have hmax : max time wake = time := by omega
    have hnlt : ¬ time < wake := by omega
    cases pc1 <;> cases pc2 <;>
      first
      | exact absurd rfl hpc
      | exact absurd (hw rfl) hnlt
      | simp [settle, led1_ready, led2_blocked, led1_task, led2_task, xSemaphoreTake,
          vTaskDelay, Suspended, resumeAt, cooldownEnd, nextCheck, countEv, countEv_append,
          isBlinkOn, hwake, hmax, hnlt]
  · have hmax : max time wake = wake := by omega
    have hlt : time < wake := by omega
    cases pc1 <;> cases pc2 <;>
      first
      | exact absurd rfl hpc
      | simp [settle, led1_ready, led2_blocked, led1_task, led2_task, xSemaphoreTake,
          vTaskDelay, Suspended, resumeAt, cooldownEnd, nextCheck, countEv, countEv_append,
          isBlinkOn, hwake, hmax, hlt]

/-! ## The suspend window -/

theorem act_keeps_flag_clear (P t : Nat) (a : Action) (s : Sys) (hge : t ≤ s.time)
    (h : s.time < t + 2000 → s.can_blink = 0 ∧ s.pc2 ≠ .enable ∧
      (s.pc2 = .wait2000 → t + 2000 ≤ s.wake2)) :
    t ≤ (act P a s).time ∧
    ((act P a s).time < t + 2000 → (act P a s).can_blink = 0 ∧ (act P a s).pc2 ≠ .enable ∧
      ((act P a s).pc2 = .wait2000 → t + 2000 ≤ (act P a s).wake2)) := by
  obtain ⟨time, last, cb, sem, lamp, l1, l2, pc1, pc2, wake, tr⟩ := s
  simp only at h hge
  cases a with
  | isr tick =>
    simp only [act, button_isr_handler]
    split
    · refine ⟨hge, fun ht => ?_⟩
      obtain ⟨_, h2, h3⟩ := h ht
      exact ⟨rfl, h2, h3⟩
    · exact ⟨hge, h⟩
  | led1 =>
    cases pc1 <;> cases sem <;> simp only [act, led1_task, xSemaphoreTake] <;>
      refine ⟨hge, fun ht => ?_⟩ <;> obtain ⟨h1, h2, h3⟩ := h ht <;>
      first
      | exact ⟨h1, h2, h3⟩
      | exact ⟨trivial, h2, h3⟩
  | led2 =>
    have htime := (led2_task_events ⟨time, last, cb, sem, lamp, l1, l2, pc1, pc2, wake, tr⟩).1
    simp only [act]
    refine ⟨by rw [htime]; exact hge, fun ht => ?_⟩
    rw [htime] at ht
    simp only at ht
    obtain ⟨h1, h2, h3⟩ := h ht
    subst h1
    cases pc2 with
    | wait2000 =>
      have hnle : ¬ wake ≤ time := by
        have := h3 rfl
        omega
      simp only [led2_task, hnle, if_false]
      exact ⟨trivial, h2, fun _ => h3 rfl⟩
    | enable => exact absurd rfl h2
    | delay2000 => simp [led2_task, vTaskDelay]; omega
    | check => simp [led2_task]
    | high => simp [led2_task]
    | delay500a => simp [led2_task]
    | low => simp [led2_task]
    | delay500b => simp [led2_task]
    | wait500a => simp only [led2_task]; split <;> simp
    | wait500b => simp only [led2_task]; split <;> simp
  | elapse d =>
    simp only [act]
    exact ⟨by omega, fun ht => h (by omega)⟩

theorem exec_keeps_flag_clear (P t : Nat) (as : List Action) (s : Sys) (hge : t ≤ s.time)
    (h : s.time < t + 2000 → s.can_blink = 0 ∧ s.pc2 ≠ .enable ∧
      (s.pc2 = .wait2000 → t + 2000 ≤ s.wake2)) :
    (exec P as s).time < t + 2000 → (exec P as s).can_blink = 0 := by
  induction as generalizing s with
  | nil => exact fun ht => (h ht).1
  | cons a as ih =>
    obtain ⟨h1, h2⟩ := act_keeps_flag_clear P t a s hge h
    exact ih _ h1 h2

theorem nextCheck_ge (s : Sys) : s.time ≤ nextCheck s := by
  unfold nextCheck
  split <;> omega

theorem accepted_event_schedule (P tick : Nat) (s : Sys)
    (hacc : isr_accepts P tick s = true) (hpc : s.pc2 ≠ .enable)
    (hw : s.pc2 = .wait2000 → s.time < s.wake2) :
    (settle 16 (button_isr_handler P tick s)).time = s.time ∧
    resumeAt (settle 16 (button_isr_handler P tick s)) = cooldownEnd s ∧
    countEv isBlinkOn (settle 16 (button_isr_handler P tick s)) = countEv isBlinkOn s ∧
    (∀ e ∈ (settle 16 (button_isr_handler P tick s)).trace, e ∈ s.trace ∨ e.1 = s.time) ∧
    ∃ k, ResumesAfter (settle 16 (button_isr_handler P tick s)) k := by
  have hu := handler_of_accept hacc
  obtain ⟨q1, q2, q3⟩ := settle_after_accept (button_isr_handler P tick s)
    (by rw [hu]) (by rw [hu]) (by rw [hu]; exact hpc) (by rw [hu]; exact hw)
  obtain ⟨e1, e2⟩ := settle_events 16 (button_isr_handler P tick s)
  refine ⟨by rw [e1, hu], ?_, ?_, ?_, suspended_resumes _ q1⟩
  · rw [q2, hu]
    simp [cooldownEnd, nextCheck]
  · rw [q3, hu]
    simp [countEv, countEv_append, isBlinkOn]
  · intro e he
    rcases e2 e he with he | he
    · rw [hu] at he
      simp only [List.mem_append, List.mem_singleton] at he
      rcases he with he | he
      · exact Or.inl he
      · exact Or.inr (by rw [he])
    · exact Or.inr (by rw [he, hu])

theorem cooldownEnd_ge (s : Sys) (h : s.pc2 ≠ .wait2000) : s.time + 2000 ≤ cooldownEnd s := by
  have := nextCheck_ge s
  simp only [cooldownEnd, h, if_false]
  omega

/-- C7 (as stated, refuted). From boot, zero latency, 1 ms tick: an edge accepted at
300 ms sends the animator into the cooldown that expires at 3000 ms; a second edge is
accepted at 2900 ms, while the animator is in that cooldown; at 3000 ms, only 100 ms
after the second accepted event, `led2_task` sets `can_blink` to 1 and drives its
output high. -/
theorem early_resume_counterexample :
    lateEventRun.trace =
      [(0, Ev.led2 1), (300, Ev.accept false), (300, Ev.taken), (300, Ev.toggle),
       (300, Ev.led1 1), (500, Ev.led2 0), (2900, Ev.accept false), (2900, Ev.taken),
       (2900, Ev.toggle), (2900, Ev.led1 0), (3000, Ev.blinkOn), (3000, Ev.led2 1)] ∧
    lateEventRun.time = 3000 ∧ lateEventRun.time < 2900 + 2000 ∧
    lateEventRun.can_blink = 1 := by
  decide

/-- C7 (amended). Let an event be accepted at time `t`.
(a) If the animator is not in a cooldown at `t` (it is not blocked in the delay of
line 110 nor about to execute line 111), then in every execution `can_blink` is 0 at
every instant before `t + 2000`.
(b) With zero latency and no further event, unless the animator is about to leave a
cooldown at `t`, `can_blink` stays 0 until the instant `cooldownEnd`, is set to 1 by
`led2_task` exactly once, at that instant, and stays 1 from then on.
(c) `cooldownEnd` is at least `t + 2000` when the animator is not in a cooldown at `t`,
and is the expiry of the cooldown in progress when it is, which can be earlier than
`t + 2000`. -/
theorem suspend_window (P tick : Nat) (s : Sys) (hacc : isr_accepts P tick s = true) :
    (s.pc2 ≠ .wait2000 → s.pc2 ≠ .enable → ∀ as : List Action,
      (exec P as (button_isr_handler P tick s)).time < s.time + 2000 →
      (exec P as (button_isr_handler P tick s)).can_blink = 0) ∧
    (s.pc2 ≠ .enable → (s.pc2 = .wait2000 → s.time < s.wake2) →
      (settle 16 (button_isr_handler P tick s)).time = s.time ∧
      ∃ k,
        (∀ j ≤ k,
          (rounds j (settle 16 (button_isr_handler P tick s))).can_blink = 0 ∧
          (rounds j (settle 16 (button_isr_handler P tick s))).time < cooldownEnd s ∧
          (rounds j (settle 16 (button_isr_handler P tick s))).time <
            (rounds (j + 1) (settle 16 (button_isr_handler P tick s))).time ∧
          countEv isBlinkOn (rounds j (settle 16 (button_isr_handler P tick s)))
            = countEv isBlinkOn s) ∧
        (rounds (k + 1) (settle 16 (button_isr_handler P tick s))).time = cooldownEnd s ∧
        (∀ j > k,
          (rounds j (settle 16 (button_isr_handler P tick s))).can_blink = 1 ∧
          (rounds j (settle 16 (button_isr_handler P tick s))).time <
            (rounds (j + 1) (settle 16 (button_isr_handler P tick s))).time ∧
          countEv isBlinkOn (rounds j (settle 16 (button_isr_handler P tick s)))
            = countEv isBlinkOn s + 1)) ∧
    (s.pc2 ≠ .wait2000 → s.time + 2000 ≤ cooldownEnd s) ∧
    (s.pc2 = .wait2000 → cooldownEnd s = s.wake2) := by
  refine ⟨?_, ?_, cooldownEnd_ge s, fun h => by simp [cooldownEnd, h]⟩
  · intro h1 h2 as
    apply exec_keeps_flag_clear P s.time as
    · rw [handler_of_accept hacc]
    · intro _
      rw [handler_of_accept hacc]
      exact ⟨rfl, h2, fun h => absurd h h1⟩
  · intro hpc hw
    obtain ⟨e1, e2, e3, _, k, hpre, hb, htime, hwake, htrace, _⟩ :=
      accepted_event_schedule P tick s hacc hpc hw
    refine ⟨e1, k, ?_, by rw [htime, e2], ?_⟩
    · intro j hj
      obtain ⟨p1, p2, p3, p4, _⟩ := hpre j hj
      exact ⟨p1, by rw [← e2]; exact p2, p3, by rw [p4, e3]⟩
    · intro j hj
      obtain ⟨i, rfl⟩ : ∃ i, j = i + (k + 1) := ⟨j - (k + 1), by omega⟩
      obtain ⟨b1, _, _, b4, _⟩ := blinking_forever i _ hb
      obtain ⟨_, r2, _⟩ := blinking_round _ b1
      have hcount : countEv isBlinkOn (rounds (k + 1) (settle 16 (button_isr_handler P tick s)))
          = countEv isBlinkOn (rounds k (settle 16 (button_isr_handler P tick s))) + 1 := by
        simp [countEv, htrace, List.filter_append, isBlinkOn]
      have hk := (hpre k (Nat.le_refl k)).2.2.2.1
      rw [rounds_succ, rounds_add]
      refine ⟨b1.2.2.1, ?_, ?_⟩
      · rw [r2]
        exact b1.2.2.2.2
      · rw [b4, hcount, hk, e3]

/-- Witness for C7 (amended): from boot with a 1 ms tick, the animator in its first
high phase when an edge is accepted at 300 ms; 1999 ms later `can_blink` is still 0. -/
theorem suspend_window_witness :
    isr_accepts 1 300 (act 1 (.elapse 300) (settle 16 init)) = true ∧
    (exec 1 [.led1, .led1, .led1, .led1, .elapse 200, .led2, .led2, .led2, .elapse 1799]
      (button_isr_handler 1 300 (act 1 (.elapse 300) (settle 16 init)))).can_blink = 0 :=
  ⟨by decide,
    (suspend_window 1 300 (act 1 (.elapse 300) (settle 16 init)) (by decide)).1
      (by decide) (by decide)
      [.led1, .led1, .led1, .led1, .elapse 200, .led2, .led2, .led2, .elapse 1799]
      (by decide)⟩

/-! ## Scenario C -/

/-- C8 (as stated, refuted). The edge is accepted at time 0 while the animator is in
its high phase with 300 ms left: `led2_task` drives its output low at 300 ms, finds
`can_blink` cleared at 800 ms and is blocked from then until 2800 ms with `can_blink`
still 0; it sets `can_blink` and drives its output high at 2800 ms, low at 3300 ms.
Nothing happens at 2000 ms or at 2500 ms. -/
theorem resume_time_counterexample :
    isr_accepts 1 5000 midHighPhase = true ∧ midHighPhase.time = 0 ∧
    (rounds 2 midHighEvent).time = 800 ∧ (rounds 2 midHighEvent).wake2 = 2800 ∧
    (rounds 2 midHighEvent).pc2 = .wait2000 ∧ (rounds 2 midHighEvent).can_blink = 0 ∧
    (rounds 4 midHighEvent).trace =
      [(0, Ev.accept false), (0, Ev.taken), (0, Ev.toggle), (0, Ev.led1 1),
       (300, Ev.led2 0), (2800, Ev.blinkOn), (2800, Ev.led2 1), (3300, Ev.led2 0)] := by
  decide

/-- C8 (amended). For an edge accepted at time `t` with the animator not in a cooldown,
followed by no further edge, with zero latency: `led2_task` does not drive its output
high during `(t, t + 2000)`; it sets `can_blink` to 1 and drives its output high at
`c + 2000` and drives it low at `c + 2500`, where `c >= t` is the instant of its next
check of `can_blink`. `c = t` (the timing of Scenario C) when it is at the check when
the edge arrives; `c` is the end of its low phase when it is in its low phase, and
500 ms after the end of its high phase when it is in its high phase. -/
theorem resume_timing (P tick : Nat) (s : Sys) (hacc : isr_accepts P tick s = true)
    (h1 : s.pc2 ≠ .wait2000) (h2 : s.pc2 ≠ .enable) :
    (settle 16 (button_isr_handler P tick s)).time = s.time ∧
    (∃ k,
      (∀ j ≤ k, (rounds j (settle 16 (button_isr_handler P tick s))).time
        < nextCheck s + 2000) ∧
      (rounds (k + 1) (settle 16 (button_isr_handler P tick s))).time = nextCheck s + 2000 ∧
      (rounds (k + 1) (settle 16 (button_isr_handler P tick s))).trace =
        (rounds k (settle 16 (button_isr_handler P tick s))).trace ++
          [(nextCheck s + 2000, Ev.blinkOn), (nextCheck s + 2000, Ev.led2 1)] ∧
      (rounds (k + 2) (settle 16 (button_isr_handler P tick s))).time = nextCheck s + 2500 ∧
      (rounds (k + 2) (settle 16 (button_isr_handler P tick s))).trace =
        (rounds (k + 1) (settle 16 (button_isr_handler P tick s))).trace ++
          [(nextCheck s + 2500, Ev.led2 0)]) ∧
    (∀ j, ∀ e ∈ (rounds j (settle 16 (button_isr_handler P tick s))).trace,
      e ∈ s.trace ∨ e.2 ≠ Ev.led2 1 ∨ e.1 ≤ s.time ∨ s.time + 2000 ≤ e.1) ∧
    s.time ≤ nextCheck s ∧
    (s.pc2 = .check → nextCheck s = s.time) ∧
    (s.pc2 = .wait500b → s.time < s.wake2 → nextCheck s = s.wake2) ∧
    (s.pc2 = .wait500a → s.time < s.wake2 → nextCheck s = s.wake2 + 500) := by
  obtain ⟨e1, e2, e3, e4, k, hpre, hb, htime, hwake, htrace, hpc2⟩ :=
    accepted_event_schedule P tick s hacc h2 (fun h => absurd h h1)
  have hce : cooldownEnd s = nextCheck s + 2000 := by simp [cooldownEnd, h1]
  have hge := nextCheck_ge s
  rw [hce] at e2
  rw [e2] at htime hwake htrace
  have hround := round_high_phase _ hb.1 hb.2.1 hpc2 hb.2.2.2.2
  refine ⟨e1, ⟨k, ?_, htime, htrace, ?_, ?_⟩, ?_, hge, ?_, ?_, ?_⟩
  · intro j hj
    have := (hpre j hj).2.1
    rw [e2] at this
    exact this
  · rw [rounds_succ, hround, hwake]
  · rw [rounds_succ (k + 1), hround, hwake]
  · intro j e he
    by_cases hj : j ≤ k
    · rcases (hpre j hj).2.2.2.2 e he with he | he
      · rcases e4 e he with he | he
        · exact Or.inl he
        · exact Or.inr (Or.inr (Or.inl (by omega)))
      · exact Or.inr (Or.inl (by rw [he]; decide))
    · obtain ⟨i, rfl⟩ : ∃ i, j = i + (k + 1) := ⟨j - (k + 1), by omega⟩
      rw [rounds_add] at he
      rcases (blinking_forever i _ hb).2.2.2.2 e he with he | he
      · rw [htrace] at he
        simp only [List.mem_append, List.mem_cons, List.mem_singleton, List.not_mem_nil,
          or_false] at he
        rcases he with he | he | he
        · rcases (hpre k (Nat.le_refl k)).2.2.2.2 e he with he | he
          · rcases e4 e he with he | he
            · exact Or.inl he
            · exact Or.inr (Or.inr (Or.inl (by omega)))
          · exact Or.inr (Or.inl (by rw [he]; decide))
        · exact Or.inr (Or.inr (Or.inr (by rw [he]; simp only; omega)))
        · exact Or.inr (Or.inr (Or.inr (by rw [he]; simp only; omega)))
      · exact Or.inr (Or.inr (Or.inr (by omega)))
  · intro h
    simp [nextCheck, h]
  · intro h hlt
    simp only [nextCheck, h]
    omega
  · intro h hlt
    simp only [nextCheck, h]
    omega

/-- Witness for C8 (amended): the animator is at its check when the edge is accepted at
time 0 (tick counter reading 5000, 1 ms tick); it resumes at 2000 ms and drives its
output low at 2500 ms. -/
theorem resume_timing_witness :
    isr_accepts 1 5000 init = true ∧ init.pc2 ≠ .wait2000 ∧ init.pc2 ≠ .enable ∧
    nextCheck init + 2000 = 2000 ∧
    (settle 16 (button_isr_handler 1 5000 init)).time = init.time :=
  ⟨by decide, by decide, by decide, by decide,
    (resume_timing 1 5000 init (by decide) (by decide) (by decide)).1⟩

/-! ## Start-up -/

theorem taskCreations_configurePins : taskCreations configurePins = [] := by decide

theorem taskCreations_append (xs ys : List Call) :
    taskCreations (xs ++ ys) = taskCreations xs ++ taskCreations ys := by
  induction xs with
  | nil => rfl
  | cons c cs ih => cases c <;> simp [taskCreations, ih]

/-- C11. If `xSemaphoreCreateBinary` returns `NULL` or `gpio_isr_handler_add` returns a
value other than `ESP_OK`, `app_main` never calls `xTaskCreate` and its last call
prints the failure message; if the semaphore creation fails, no interrupt handler is
registered either. -/
theorem setup_failure_starts_no_tasks (ESP_OK pdPASS : Int) (o : Startup)
    (hfail : o.semaphore = false ∨ o.isrAdd ≠ ESP_OK) :
    taskCreations (app_main ESP_OK pdPASS o) = [] ∧
    (∀ t p, Call.xTaskCreate t p ∉ app_main ESP_OK pdPASS o) ∧
    startedTasks ESP_OK pdPASS o = [] ∧
    (o.semaphore = false →
      (app_main ESP_OK pdPASS o).getLast? = some (.printf .semaphoreFailed) ∧
      (∀ pin, Call.gpio_isr_handler_add pin ∉ app_main ESP_OK pdPASS o) ∧
      Call.gpio_install_isr_service ∉ app_main ESP_OK pdPASS o) ∧
    (o.semaphore = true →
      (app_main ESP_OK pdPASS o).getLast? = some (.printf .isrFailed)) := by
  obtain ⟨sem, r, t1, t2⟩ := o
  cases sem with
  | false =>
    simp [app_main, configurePins, taskCreations, startedTasks]
  | true =>
    have hr : r ≠ ESP_OK := by simpa using hfail
    simp [app_main, configurePins, taskCreations, startedTasks, hr]

/-- Witness for C11: the handler registration fails with the value -1 where `ESP_OK`
is 0. -/
theorem setup_failure_starts_no_tasks_witness :
    ((⟨true, -1, 1, 1⟩ : Startup).semaphore = false ∨ (⟨true, -1, 1, 1⟩ : Startup).isrAdd ≠ 0) ∧
    taskCreations (app_main 0 1 ⟨true, -1, 1, 1⟩) = [] :=
  ⟨by decide, (setup_failure_starts_no_tasks 0 1 ⟨true, -1, 1, 1⟩ (by decide)).1⟩

/-- C15. When the semaphore creation, the handler registration and both task creations
succeed, `app_main` creates the semaphore and registers the handler before any task
creation, creates exactly the two tasks `led1_task` and `led2_task`, in this order,
and gives the responder a priority strictly greater than the animator. -/
theorem setup_success_order_priority (ESP_OK pdPASS : Int) (o : Startup)
    (hsem : o.semaphore = true) (hisr : o.isrAdd = ESP_OK)
    (h1 : o.led1Create = pdPASS) (h2 : o.led2Create = pdPASS) :
    app_main ESP_OK pdPASS o =
      (configurePins ++ [.xSemaphoreCreateBinary, .gpio_install_isr_service,
        .gpio_isr_handler_add BUTTON_PIN, .gpio_set_intr_type BUTTON_PIN])
      ++ [.xTaskCreate .led1 10, .xTaskCreate .led2 5] ∧
    taskCreations (configurePins ++ [.xSemaphoreCreateBinary, .gpio_install_isr_service,
        .gpio_isr_handler_add BUTTON_PIN, .gpio_set_intr_type BUTTON_PIN]) = [] ∧
    taskCreations (app_main ESP_OK pdPASS o) = [(.led1, 10), (.led2, 5)] ∧
    startedTasks ESP_OK pdPASS o = [.led1, .led2] ∧
    (∀ p1 p2, (TaskFn.led1, p1) ∈ taskCreations (app_main ESP_OK pdPASS o) →
      (TaskFn.led2, p2) ∈ taskCreations (app_main ESP_OK pdPASS o) → p2 < p1) := by
  have hcalls : app_main ESP_OK pdPASS o =
      (configurePins ++ [.xSemaphoreCreateBinary, .gpio_install_isr_service,
        .gpio_isr_handler_add BUTTON_PIN, .gpio_set_intr_type BUTTON_PIN])
      ++ [.xTaskCreate .led1 10, .xTaskCreate .led2 5] := by
    simp [app_main, hsem, hisr, h1, h2]
  have htasks : taskCreations (app_main ESP_OK pdPASS o) = [(.led1, 10), (.led2, 5)] := by
    rw [hcalls]
    decide
  refine ⟨hcalls, by decide, htasks, ?_, ?_⟩
  · simp [startedTasks, htasks, h1, h2]
  · intro p1 p2 hp1 hp2
    rw [htasks] at hp1 hp2
    simp at hp1 hp2
    omega

/-- Witness for C15: every start-up call succeeds, with `ESP_OK = 0` and `pdPASS = 1`. -/
theorem setup_success_order_priority_witness :
    (⟨true, 0, 1, 1⟩ : Startup).semaphore = true ∧ (⟨true, 0, 1, 1⟩ : Startup).isrAdd = 0 ∧
    (⟨true, 0, 1, 1⟩ : Startup).led1Create = 1 ∧ (⟨true, 0, 1, 1⟩ : Startup).led2Create = 1 ∧
    taskCreations (app_main 0 1 ⟨true, 0, 1, 1⟩) = [(.led1, 10), (.led2, 5)] :=
  ⟨by decide, by decide, by decide, by decide,
    (setup_success_order_priority 0 1 ⟨true, 0, 1, 1⟩ (by decide) (by decide) (by decide)
      (by decide)).2.2.1⟩

theorem app_main_no_teardown (ESP_OK pdPASS : Int) (o : Startup) :
    (∀ pin, Call.gpio_isr_handler_remove pin ∉ app_main ESP_OK pdPASS o) ∧
    Call.vSemaphoreDelete ∉ app_main ESP_OK pdPASS o := by
  obtain ⟨sem, r, t1, t2⟩ := o
  simp only [app_main, configurePins]
  split
  · simp
  · split
    · simp
    · split <;> split <;> simp

/-- C20. When the semaphore and the handler are set up and `xTaskCreate` for
`led1_task` does not return `pdPASS`, `app_main` prints the message of line 156 and
then still calls `xTaskCreate` for `led2_task`; if that call succeeds the animator is
the only task, with the handler registered. For all results of the start-up calls
`app_main` never removes the handler and never deletes the semaphore. -/
theorem led1_failure_not_fatal (ESP_OK pdPASS : Int) (o : Startup)
    (hsem : o.semaphore = true) (hisr : o.isrAdd = ESP_OK) (h1 : o.led1Create ≠ pdPASS) :
    (∃ post, app_main ESP_OK pdPASS o =
      (configurePins ++ [.xSemaphoreCreateBinary, .gpio_install_isr_service,
        .gpio_isr_handler_add BUTTON_PIN, .gpio_set_intr_type BUTTON_PIN])
      ++ [.xTaskCreate .led1 10, .printf .led1Failed, .xTaskCreate .led2 5] ++ post) ∧
    Call.gpio_isr_handler_add BUTTON_PIN ∈ app_main ESP_OK pdPASS o ∧
    (o.led2Create = pdPASS → startedTasks ESP_OK pdPASS o = [.led2]) ∧
    (∀ (o2 : Startup) (pin : Nat), Call.gpio_isr_handler_remove pin ∉ app_main ESP_OK pdPASS o2) ∧
    (∀ o2 : Startup, Call.vSemaphoreDelete ∉ app_main ESP_OK pdPASS o2) := by
  refine ⟨?_, ?_, ?_, fun o2 => (app_main_no_teardown ESP_OK pdPASS o2).1,
    fun o2 => (app_main_no_teardown ESP_OK pdPASS o2).2⟩
  · obtain ⟨sem, r, t1, t2⟩ := o
    simp only at hsem hisr h1
    subst hsem hisr
    exact ⟨if t2 ≠ pdPASS then [.printf .led2Failed] else [], by simp [app_main, h1]⟩
  · obtain ⟨sem, r, t1, t2⟩ := o
    simp only at hsem hisr h1
    subst hsem hisr
    simp [app_main, h1]
  · intro h2
    obtain ⟨sem, r, t1, t2⟩ := o
    simp only at hsem hisr h1 h2
    subst hsem hisr h2
    simp [startedTasks, app_main, configurePins, taskCreations, h1]

/-- Witness for C20: the creation of `led1_task` returns 0 where `pdPASS` is 1. -/
theorem led1_failure_not_fatal_witness :
    (⟨true, 0, 0, 1⟩ : Startup).semaphore = true ∧ (⟨true, 0, 0, 1⟩ : Startup).isrAdd = 0 ∧
    (⟨true, 0, 0, 1⟩ : Startup).led1Create ≠ 1 ∧
    Call.gpio_isr_handler_add BUTTON_PIN ∈ app_main 0 1 ⟨true, 0, 0, 1⟩ ∧
    startedTasks 0 1 ⟨true, 0, 0, 1⟩ = [.led2] :=
  ⟨by decide, by decide, by decide,
    (led1_failure_not_fatal 0 1 ⟨true, 0, 0, 1⟩ (by decide) (by decide) (by decide)).2.1,
    (led1_failure_not_fatal 0 1 ⟨true, 0, 0, 1⟩ (by decide) (by decide) (by decide)).2.2.1
      (by decide)⟩

/-! ## Tick conversion and rejected edges -/

theorem sub32_mul (P c1 c2 : Nat) (h1 : c1 < U32) :
    sub32 (current_time P c2) (current_time P c1) = (sub32 c2 c1 * P) % U32 := by
  unfold sub32 current_time U32 at *
  have hcast : ∀ x y : Nat, ((x : Int) ≡ (y : Int) [ZMOD ((4294967296 : Nat) : Int)]) →
      x % 4294967296 = y % 4294967296 := fun x y h => (Int.natCast_modEq_iff.mp h)
  apply hcast
  have hb : (c1 * P) % 4294967296 ≤ (c2 * P) % 4294967296 + 4294967296 := by omega
  have hc : c1 ≤ c2 + 4294967296 := by omega
  rw [Int.modEq_iff_dvd]
  push_cast [Nat.cast_sub hb, Nat.cast_sub hc]
  refine ⟨(P : Int) - ((c2 : Int) + 4294967296 - c1) / 4294967296 * P
    + (c2 * P : Int) / 4294967296 - 1 - (c1 * P : Int) / 4294967296, ?_⟩
  rw [Int.emod_def, Int.emod_def, Int.emod_def]
  ring

/-- C18. For every tick period `P`, every 32-bit tick count `c1` and every tick count
`c2` (32-bit or not), the elapsed
value computed by the handler, `(c2*P mod 2^32 - c1*P mod 2^32) mod 2^32`, equals
`(((c2 - c1) mod 2^32) * P) mod 2^32`; hence whenever the true elapsed time
`((c2 - c1) mod 2^32) * P` is below `2^32` ms, an edge read at tick `c2` after one
accepted at tick `c1` is accepted iff the true elapsed time exceeds 200 ms. -/
theorem tick_conversion_wrap_safe (P c1 c2 : Nat) (h1 : c1 < U32) :
    sub32 (current_time P c2) (current_time P c1) = (sub32 c2 c1 * P) % U32 ∧
    (sub32 c2 c1 * P < U32 →
      sub32 (current_time P c2) (current_time P c1) = sub32 c2 c1 * P ∧
      ∀ s : Sys, s.last_interrupt_time = current_time P c1 →
        (isr_accepts P c2 s = true ↔ 200 < sub32 c2 c1 * P)) := by
  have hkey := sub32_mul P c1 c2 h1
  refine ⟨hkey, fun hlt => ?_⟩
  have heq : sub32 (current_time P c2) (current_time P c1) = sub32 c2 c1 * P := by
    rw [hkey, Nat.mod_eq_of_lt hlt]
  refine ⟨heq, fun s hs => ?_⟩
  simp only [isr_accepts, DEBOUNCE_TIME_MS, decide_eq_true_eq, hs, heq]

/-- Witness for C18: a 10 ms tick, the tick counter wrapping from `2^32 - 10` to 15
between the two edges; the true elapsed time is 250 ms and the edge is accepted. -/
theorem tick_conversion_wrap_safe_witness :
    4294967286 < U32 ∧ 15 < U32 ∧ sub32 15 4294967286 * 10 = 250 ∧
    sub32 (current_time 10 15) (current_time 10 4294967286) = 250 ∧
    isr_accepts 10 15 (button_isr_handler 10 4294967286 init) = true :=
  ⟨by decide, by decide, by decide,
    ((tick_conversion_wrap_safe 10 4294967286 15 (by decide)).2 (by decide)).1,
    (((tick_conversion_wrap_safe 10 4294967286 15 (by decide)).2 (by decide)).2
      (button_isr_handler 10 4294967286 init) (by decide)).mpr (by decide)⟩

/-- C19. For every initial state and every sequence of edges, feeding only the accepted
edges gives the same accepted edges and the same final state, in particular the same
`last_interrupt_time`, as feeding the whole sequence; and after a run of edges that
are all rejected the state is as before the run, so the decision on the next edge is
the one taken without them: an edge more than 200 ms after `last_interrupt_time` is
accepted however many rejected edges came in between. -/
theorem rejected_edges_do_not_extend (P : Nat) (cs : List Nat) (s : Sys) :
    acceptedEdges P (acceptedEdges P cs s) s = acceptedEdges P cs s ∧
    feedEdges P (acceptedEdges P cs s) s = feedEdges P cs s ∧
    (feedEdges P (acceptedEdges P cs s) s).last_interrupt_time
      = (feedEdges P cs s).last_interrupt_time ∧
    (acceptedEdges P cs s = [] →
      feedEdges P cs s = s ∧
      ∀ tick, 200 < sub32 (current_time P tick) s.last_interrupt_time →
        isr_accepts P tick (feedEdges P cs s) = true) := by
  have hmain : acceptedEdges P (acceptedEdges P cs s) s = acceptedEdges P cs s ∧
      feedEdges P (acceptedEdges P cs s) s = feedEdges P cs s := by
    induction cs generalizing s with
    | nil => exact ⟨rfl, rfl⟩
    | cons c cs ih =>
      by_cases hacc : isr_accepts P (c % U32) s = true
      · obtain ⟨i1, i2⟩ := ih (button_isr_handler P (c % U32) s)
        simp only [acceptedEdges, feedEdges, hacc, if_true]
        exact ⟨by rw [i1], i2⟩
      · have hrej : isr_accepts P (c % U32) s = false := by simpa using hacc
        simp only [acceptedEdges, feedEdges, hrej, handler_of_reject hrej]
        simpa using ih s
  refine ⟨hmain.1, hmain.2, by rw [hmain.2], fun hnone => ?_⟩
  have hsame : feedEdges P cs s = s := by
    rw [← hmain.2, hnone]
    rfl
  refine ⟨hsame, fun tick ht => ?_⟩
  rw [hsame]
  simpa [isr_accepts, DEBOUNCE_TIME_MS] using ht

/-- Witness for C19: after an edge accepted at 300 ms (1 ms tick), edges at 350, 400 and
450 ms are rejected and the edge at 501 ms is accepted. -/
theorem rejected_edges_do_not_extend_witness :
    acceptedEdges 1 [350, 400, 450] (button_isr_handler 1 300 init) = [] ∧
    200 < sub32 (current_time 1 501) (button_isr_handler 1 300 init).last_interrupt_time ∧
    isr_accepts 1 501 (feedEdges 1 [350, 400, 450] (button_isr_handler 1 300 init)) = true :=
  ⟨by decide, by decide,
    ((rejected_edges_do_not_extend 1 [350, 400, 450] (button_isr_handler 1 300 init)).2.2.2
      (by decide)).2 501 (by decide)⟩

/-! ## Ownership of the shared variables and of the outputs -/

/-- C14. For every state and every step: `last_interrupt_time` is changed by no step of
`led1_task` or `led2_task` and by no passage of time, so only by the handler, and by
it only when it accepts; the LED1 output is written only by `led1_task`, the LED2
output only by `led2_task`; the handler writes neither output. -/
theorem single_owner_frames (P : Nat) (s : Sys) :
    (led1_task s).last_interrupt_time = s.last_interrupt_time ∧
    (led2_task s).last_interrupt_time = s.last_interrupt_time ∧
    (∀ a : Action, (act P a s).last_interrupt_time ≠ s.last_interrupt_time →
      ∃ tick, a = .isr tick ∧ isr_accepts P tick s = true) ∧
    (∀ a : Action, a ≠ .led1 → (act P a s).led1_level = s.led1_level ∧
      countEv isLed1Write (act P a s) = countEv isLed1Write s) ∧
    (∀ a : Action, a ≠ .led2 → (act P a s).led2_level = s.led2_level ∧
      countEv isLed2Write (act P a s) = countEv isLed2Write s) ∧
    (∀ tick, (button_isr_handler P tick s).led1_level = s.led1_level ∧
      (button_isr_handler P tick s).led2_level = s.led2_level ∧
      countEv isLed1Write (button_isr_handler P tick s) = countEv isLed1Write s ∧
      countEv isLed2Write (button_isr_handler P tick s) = countEv isLed2Write s) := by
  obtain ⟨time, last, cb, sem, lamp, l1, l2, pc1, pc2, wake, tr⟩ := s
  have h1 : (led1_task ⟨time, last, cb, sem, lamp, l1, l2, pc1, pc2, wake, tr⟩).last_interrupt_time
      = last ∧ (led1_task ⟨time, last, cb, sem, lamp, l1, l2, pc1, pc2, wake, tr⟩).led2_level = l2 ∧
      countEv isLed2Write (led1_task ⟨time, last, cb, sem, lamp, l1, l2, pc1, pc2, wake, tr⟩)
        = countEv isLed2Write ⟨time, last, cb, sem, lamp, l1, l2, pc1, pc2, wake, tr⟩ := by
    cases pc1 <;> cases sem <;>
      simp [led1_task, xSemaphoreTake, countEv, countEv_append, isLed2Write]
  have h2 : (led2_task ⟨time, last, cb, sem, lamp, l1, l2, pc1, pc2, wake, tr⟩).last_interrupt_time
      = last ∧ (led2_task ⟨time, last, cb, sem, lamp, l1, l2, pc1, pc2, wake, tr⟩).led1_level = l1 ∧
      countEv isLed1Write (led2_task ⟨time, last, cb, sem, lamp, l1, l2, pc1, pc2, wake, tr⟩)
        = countEv isLed1Write ⟨time, last, cb, sem, lamp, l1, l2, pc1, pc2, wake, tr⟩ := by
    cases pc2 <;> simp only [led2_task] <;> (try split) <;>
      simp [countEv, countEv_append, isLed1Write]
  have h3 : ∀ tick,
      (button_isr_handler P tick ⟨time, last, cb, sem, lamp, l1, l2, pc1, pc2, wake, tr⟩).led1_level
        = l1 ∧
      (button_isr_handler P tick ⟨time, last, cb, sem, lamp, l1, l2, pc1, pc2, wake, tr⟩).led2_level
        = l2 ∧
      countEv isLed1Write
          (button_isr_handler P tick ⟨time, last, cb, sem, lamp, l1, l2, pc1, pc2, wake, tr⟩)
        = countEv isLed1Write ⟨time, last, cb, sem, lamp, l1, l2, pc1, pc2, wake, tr⟩ ∧
      countEv isLed2Write
          (button_isr_handler P tick ⟨time, last, cb, sem, lamp, l1, l2, pc1, pc2, wake, tr⟩)
        = countEv isLed2Write ⟨time, last, cb, sem, lamp, l1, l2, pc1, pc2, wake, tr⟩ := by
    intro tick
    simp only [button_isr_handler]
    split <;> simp [countEv, countEv_append, isLed1Write, isLed2Write]
  refine ⟨h1.1, h2.1, ?_, ?_, ?_, h3⟩
  · intro a ha
    cases a with
    | isr tick =>
      refine ⟨tick, rfl, ?_⟩
      by_contra hrej
      have hrej2 : isr_accepts P tick ⟨time, last, cb, sem, lamp, l1, l2, pc1, pc2, wake, tr⟩
          = false := by simpa using hrej
      exact ha (by simp only [act]; rw [handler_of_reject hrej2])
    | led1 => exact absurd h1.1 ha
    | led2 => exact absurd h2.1 ha
    | elapse d => exact absurd rfl ha
  · intro a ha
    cases a with
    | isr tick => exact ⟨(h3 tick).1, (h3 tick).2.2.1⟩
    | led1 => exact absurd rfl ha
    | led2 => exact ⟨h2.2.1, h2.2.2⟩
    | elapse d => exact ⟨rfl, rfl⟩
  · intro a ha
    cases a with
    | isr tick => exact ⟨(h3 tick).2.1, (h3 tick).2.2.2⟩
    | led1 => exact ⟨h1.2.1, h1.2.2⟩
    | led2 => exact absurd rfl ha
    | elapse d => exact ⟨rfl, rfl⟩

/-! ## The responder -/

/-- C16. One handling pass of `led1_task`, started with the semaphore signaled: the
semaphore is reset to empty, `isLampOn` is replaced by its logical negation, which is 0
or 1, exactly that value is written to the LED1 output, `can_blink` is set to 0,
`last_interrupt_time` and the LED2 output are unchanged and the task is back at
`xSemaphoreTake`; when `isLampOn` is 0 or 1, a second pass restores its value. -/
theorem responder_pass (P : Nat) (s : Sys) (hpc : s.pc1 = .take)
    (hsem : s.buttonSemaphore = true) :
    (exec P handlingPass s).buttonSemaphore = false ∧
    (exec P handlingPass s).isLampOn = lnot s.isLampOn ∧
    ((exec P handlingPass s).isLampOn = 0 ∨ (exec P handlingPass s).isLampOn = 1) ∧
    (exec P handlingPass s).led1_level = (exec P handlingPass s).isLampOn ∧
    (exec P handlingPass s).trace = s.trace ++
      [(s.time, Ev.taken), (s.time, Ev.toggle), (s.time, Ev.led1 (lnot s.isLampOn))] ∧
    (exec P handlingPass s).can_blink = 0 ∧
    (exec P handlingPass s).last_interrupt_time = s.last_interrupt_time ∧
    (exec P handlingPass s).led2_level = s.led2_level ∧
    (exec P handlingPass s).pc1 = .take ∧
    ((s.isLampOn = 0 ∨ s.isLampOn = 1) → ∀ y : Sys, y.pc1 = .take → y.buttonSemaphore = true →
      y.isLampOn = (exec P handlingPass s).isLampOn →
      (exec P handlingPass y).isLampOn = s.isLampOn) := by
  rw [pass_signaled P s hpc hsem]
  refine ⟨rfl, rfl, ?_, rfl, rfl, rfl, rfl, rfl, hpc, ?_⟩
  · simp only [lnot]
    split
    · exact Or.inr rfl
    · exact Or.inl rfl
  · intro h01 y hy1 hy2 hy3
    rw [pass_signaled P y hy1 hy2]
    simp only at hy3 ⊢
    rw [hy3]
    rcases h01 with h | h <;> rw [h] <;> decide

/-- Witness for C16: from boot, the pass that handles an edge accepted at 300 ms turns
the lamp on. -/
theorem responder_pass_witness :
    (button_isr_handler 1 300 init).pc1 = .take ∧
    (button_isr_handler 1 300 init).buttonSemaphore = true ∧
    (exec 1 handlingPass (button_isr_handler 1 300 init)).isLampOn = lnot init.isLampOn ∧
    (exec 1 handlingPass (button_isr_handler 1 300 init)).led1_level = 1 :=
  ⟨by decide, by decide,
    (responder_pass 1 (button_isr_handler 1 300 init) (by decide) (by decide)).2.1,
    by decide⟩

/-! ## Signal latching -/

theorem signal_persists (P : Nat) (as : List Action) (s : Sys)
    (hsem : s.buttonSemaphore = true) (hquiet : noTake P as s = true) :
    (exec P as s).buttonSemaphore = true := by
  induction as generalizing s with
  | nil => exact hsem
  | cons a as ih =>
    simp only [noTake, Bool.and_eq_true, Bool.or_eq_true, decide_eq_true_eq] at hquiet
    obtain ⟨ha, hrest⟩ := hquiet
    apply ih _ _ hrest
    obtain ⟨time, last, cb, sem, lamp, l1, l2, pc1, pc2, wake, tr⟩ := s
    simp only at hsem ha
    subst hsem
    cases a with
    | isr tick =>
      simp only [act, button_isr_handler]
      split <;> rfl
    | led1 =>
      have hpc : pc1 ≠ .take := by
        rcases ha with ha | ha
        · exact absurd rfl ha
        · exact ha
      cases pc1 with
      | take => exact absurd rfl hpc
      | toggle => rfl
      | write => rfl
      | clear => rfl
    | led2 =>
      simp only [act, led2_task]
      split <;> (try split) <;> rfl
    | elapse d => rfl

/-- C13. After the handler has accepted an edge the semaphore is signaled, and it stays
signaled through every later interrupt (rejected or accepted), every animator step,
every passage of time and every statement of `led1_task` other than the take; when
`led1_task` then reaches `xSemaphoreTake`, the take returns at once and resets the
semaphore to empty, one handling pass runs (one more toggle), after which the task is
blocked again: a further pass changes nothing. -/
theorem latched_signal (P tick : Nat) (s : Sys) (hacc : isr_accepts P tick s = true)
    (as : List Action) (hquiet : noTake P as (button_isr_handler P tick s) = true) :
    (button_isr_handler P tick s).buttonSemaphore = true ∧
    (exec P as (button_isr_handler P tick s)).buttonSemaphore = true ∧
    ((exec P as (button_isr_handler P tick s)).pc1 = .take →
      (led1_task (exec P as (button_isr_handler P tick s))).pc1 = .toggle ∧
      (led1_task (exec P as (button_isr_handler P tick s))).buttonSemaphore = false ∧
      (exec P handlingPass (exec P as (button_isr_handler P tick s))).buttonSemaphore = false ∧
      (exec P handlingPass (exec P as (button_isr_handler P tick s))).pc1 = .take ∧
      countEv isToggle (exec P handlingPass (exec P as (button_isr_handler P tick s)))
        = countEv isToggle (exec P as (button_isr_handler P tick s)) + 1 ∧
      exec P handlingPass (exec P handlingPass (exec P as (button_isr_handler P tick s)))
        = exec P handlingPass (exec P as (button_isr_handler P tick s))) := by
  have h0 : (button_isr_handler P tick s).buttonSemaphore = true := by
    rw [handler_of_accept hacc]
  have h1 := signal_persists P as _ h0 hquiet
  refine ⟨h0, h1, fun hpc => ?_⟩
  have hpass := pass_signaled P _ hpc h1
  refine ⟨?_, ?_, by rw [hpass], by rw [hpass]; exact hpc, ?_, ?_⟩
  · simp [led1_task, hpc, h1, xSemaphoreTake]
  · simp [led1_task, hpc, h1, xSemaphoreTake]
  · rw [hpass]
    simp [countEv, List.filter_append, List.filter, isToggle]
  · apply pass_blocked
    · rw [hpass]; exact hpc
    · rw [hpass]

/-- Witness for C13: from a state in which `led1_task` is in the middle of a pass, an
edge is accepted at 300 ms; the pass is finished, a rejected edge arrives at 350 ms and
the animator makes two steps before `led1_task` reaches the take. -/
theorem latched_signal_witness :
    isr_accepts 1 300 { init with pc1 := .write } = true ∧
    noTake 1 [.led1, .led1, .isr 350, .led2, .led2]
      (button_isr_handler 1 300 { init with pc1 := .write }) = true ∧
    (exec 1 [.led1, .led1, .isr 350, .led2, .led2]
      (button_isr_handler 1 300 { init with pc1 := .write })).pc1 = .take ∧
    (exec 1 [.led1, .led1, .isr 350, .led2, .led2]
      (button_isr_handler 1 300 { init with pc1 := .write })).buttonSemaphore = true :=
  ⟨by decide, by decide, by decide,
    (latched_signal 1 300 { init with pc1 := .write } (by decide)
      [.led1, .led1, .isr 350, .led2, .led2] (by decide)).2.1⟩

/-! ## The animator -/

theorem settle_at_check (s : Sys) (hpc2 : s.pc2 = .check) (hflag : s.can_blink = 1)
    (hpc1 : s.pc1 = .take) (hsem : s.buttonSemaphore = false) :
    settle 16 s = { s with led2_level := 1, pc2 := .wait500a, wake2 := s.time + 500,
                           trace := s.trace ++ [(s.time, Ev.led2 1)] } := by
  obtain ⟨time, last, cb, sem, lamp, l1, l2, pc1, pc2, wake, tr⟩ := s
  simp only at hpc2 hflag hpc1 hsem
  subst hpc2 hflag hpc1 hsem
  simp [settle, led1_ready, led2_blocked, led2_task, vTaskDelay]

theorem round_round_blinking (x : Sys) (h1 : x.pc1 = .take) (h2 : x.buttonSemaphore = false)
    (h3 : x.pc2 = .wait500a) (h4 : x.time < x.wake2) (h5 : x.can_blink = 1) :
    round (round x) =
      { x with time := x.wake2 + 500, led2_level := 1, pc2 := .wait500a,
               wake2 := x.wake2 + 500 + 500,
               trace := x.trace ++ [(x.wake2, Ev.led2 0), (x.wake2 + 500, Ev.led2 1)] } := by
  rw [round_high_phase x h1 h2 h3 h4]
  refine (round_low_phase_blinking _ ?_ ?_ ?_ ?_ ?_).trans ?_
  · exact h1
  · exact h2
  · rfl
  · simp
  · simp [h5]
  · simp

theorem wave_cycle (s : Sys) (hpc2 : s.pc2 = .check) (hflag : s.can_blink = 1)
    (hpc1 : s.pc1 = .take) (hsem : s.buttonSemaphore = false) (k : Nat) :
    rounds (2 * k) (settle 16 s) =
      { s with time := s.time + 1000 * k, led2_level := 1, pc2 := .wait500a,
               wake2 := s.time + 1000 * k + 500,
               trace := s.trace ++ squareWave s.time k ++ [(s.time + 1000 * k, Ev.led2 1)] } := by
  induction k with
  | zero =>
    rw [settle_at_check s hpc2 hflag hpc1 hsem]
    simp [rounds, squareWave]
  | succ k ih =>
    have h2 : 2 * (k + 1) = 2 * k + 1 + 1 := by ring
    rw [h2, rounds_succ, rounds_succ, ih]
    refine (round_round_blinking _ ?_ ?_ ?_ ?_ ?_).trans ?_
    · exact hpc1
    · exact hsem
    · rfl
    · simp
    · exact hflag
    · have e1 : s.time + 1000 * k + 500 + 500 = s.time + 1000 * (k + 1) := by ring
      simp only [squareWave, List.append_assoc, List.cons_append, List.nil_append, e1]

/-- C12. Starting with `led2_task` at the head of its loop, `can_blink` true, the
responder waiting and no edge accepted, with zero latency: for every cycle `k` the
animator drives its output high at `t0 + 1000 * k` and low at `t0 + 1000 * k + 500`
(`t0` the starting time) and these are its only output writes; the clock advances by
500 ms per round, so no 2000 ms cooldown is ever entered, `can_blink` stays 1 and
`led2_task` never writes it. -/
theorem animator_square_wave (s : Sys) (hpc2 : s.pc2 = .check) (hflag : s.can_blink = 1)
    (hpc1 : s.pc1 = .take) (hsem : s.buttonSemaphore = false) (k : Nat) :
    (rounds (2 * k) (settle 16 s)).time = s.time + 1000 * k ∧
    (rounds (2 * k) (settle 16 s)).trace =
      s.trace ++ squareWave s.time k ++ [(s.time + 1000 * k, Ev.led2 1)] ∧
    (rounds (2 * k) (settle 16 s)).led2_level = 1 ∧
    (rounds (2 * k) (settle 16 s)).pc2 = .wait500a ∧
    (rounds (2 * k) (settle 16 s)).can_blink = 1 ∧
    (rounds (2 * k + 1) (settle 16 s)).time = s.time + 1000 * k + 500 ∧
    (rounds (2 * k + 1) (settle 16 s)).trace = s.trace ++ squareWave s.time (k + 1) ∧
    (rounds (2 * k + 1) (settle 16 s)).led2_level = 0 ∧
    (rounds (2 * k + 1) (settle 16 s)).pc2 = .wait500b ∧
    (rounds (2 * k + 1) (settle 16 s)).can_blink = 1 ∧
    countEv isBlinkOn (rounds (2 * k) (settle 16 s)) = countEv isBlinkOn s ∧
    countEv isBlinkOn (rounds (2 * k + 1) (settle 16 s)) = countEv isBlinkOn s ∧
    (∀ e ∈ squareWave s.time k, e.2 = Ev.led2 1 ∨ e.2 = Ev.led2 0) := by
  have hk := wave_cycle s hpc2 hflag hpc1 hsem k
  have hk1 : rounds (2 * k + 1) (settle 16 s) =
      { s with time := s.time + 1000 * k + 500, led2_level := 0, pc2 := .wait500b,
               wake2 := s.time + 1000 * k + 500 + 500,
               trace := s.trace ++ squareWave s.time (k + 1) } := by
    rw [rounds_succ, hk]
    refine (round_high_phase _ ?_ ?_ ?_ ?_).trans ?_
    · exact hpc1
    · exact hsem
    · rfl
    · simp
    · simp [squareWave]
  have hwave : ∀ n, ∀ e ∈ squareWave s.time n, e.2 = Ev.led2 1 ∨ e.2 = Ev.led2 0 := by
    intro n
    induction n with
    | zero => simp [squareWave]
    | succ n ih =>
      intro e he
      simp only [squareWave, List.mem_append, List.mem_cons, List.mem_singleton,
        List.not_mem_nil, or_false] at he
      rcases he with he | he | he
      · exact ih e he
      · exact Or.inl (by rw [he])
      · exact Or.inr (by rw [he])
  have hcount : ∀ n, (List.filter (fun e => isBlinkOn e.2) (squareWave s.time n)).length = 0 := by
    intro n
    rw [List.length_eq_zero, List.filter_eq_nil_iff]
    intro e he
    rcases hwave n e he with h | h <;> rw [h] <;> decide
  refine ⟨by rw [hk], by rw [hk], by rw [hk], by rw [hk], by rw [hk]; exact hflag,
    by rw [hk1], by rw [hk1], by rw [hk1], by rw [hk1], by rw [hk1]; exact hflag, ?_, ?_,
    hwave k⟩
  · rw [hk]
    simp only [countEv, List.filter_append, List.length_append, hcount k]
    simp [List.filter, isBlinkOn]
  · rw [hk1]
    simp only [countEv, List.filter_append, List.length_append, hcount (k + 1)]
    simp

/-- Witness for C12: from boot, cycle 9 (the tenth) drives the output high at 9000 ms
and low at 9500 ms. -/
theorem animator_square_wave_witness :
    init.pc2 = .check ∧ init.can_blink = 1 ∧ init.pc1 = .take ∧ init.buttonSemaphore = false ∧
    (rounds (2 * 9) (settle 16 init)).time = init.time + 1000 * 9 ∧
    (rounds (2 * 9 + 1) (settle 16 init)).time = init.time + 1000 * 9 + 500 :=
  ⟨rfl, rfl, rfl, rfl,
    (animator_square_wave init rfl rfl rfl rfl 9).1,
    (animator_square_wave init rfl rfl rfl rfl 9).2.2.2.2.2.1⟩

theorem act_time_mono (P : Nat) (a : Action) (s : Sys) : s.time ≤ (act P a s).time := by
  cases a with
  | isr tick =>
    simp only [act, button_isr_handler]
    split <;> exact Nat.le_refl _
  | led1 => simp only [act]; rw [(led1_task_events s).1]
  | led2 => simp only [act]; rw [(led2_task_events s).1]
  | elapse d => simp only [act]; omega

theorem led2_task_blocked (x : Sys) (h1 : x.pc2 = .wait2000) (h2 : x.time < x.wake2) :
    led2_task x = x := by
  have hnle : ¬ x.wake2 ≤ x.time := by omega
  simp only [led2_task, h1, hnle, if_false]

theorem act_keeps_cooldown (P w : Nat) (l2 : Int) (n : Nat) (a : Action) (s : Sys)
    (h : s.time < w → s.pc2 = .wait2000 ∧ s.wake2 = w ∧ s.led2_level = l2 ∧
      countEv isLed2Write s = n) :
    (act P a s).time < w → (act P a s).pc2 = .wait2000 ∧ (act P a s).wake2 = w ∧
      (act P a s).led2_level = l2 ∧ countEv isLed2Write (act P a s) = n := by
  intro ht
  have hmono := act_time_mono P a s
  obtain ⟨h1, h2, h3, h4⟩ := h (by omega)
  have hlt : s.time < w := by omega
  obtain ⟨time, last, cb, sem, lamp, l1, l2', pc1, pc2, wake, tr⟩ := s
  simp only at h1 h2 h3 hlt
  subst h1 h2 h3
  cases a with
  | isr tick =>
    simp only [act, button_isr_handler]
    split
    · refine ⟨rfl, rfl, rfl, ?_⟩
      rw [← h4]
      simp [countEv, countEv_append, isLed2Write]
    · exact ⟨rfl, rfl, rfl, h4⟩
  | led1 =>
    cases pc1 <;> cases sem <;>
      simp [act, led1_task, xSemaphoreTake, countEv, countEv_append, isLed2Write] <;>
      exact h4
  | led2 =>
    have hb := led2_task_blocked ⟨time, last, cb, sem, lamp, l1, l2', pc1, .wait2000, wake, tr⟩
      rfl hlt
    simp only [act]
    rw [hb]
    exact ⟨rfl, rfl, rfl, h4⟩
  | elapse d => exact ⟨rfl, rfl, rfl, h4⟩

theorem exec_keeps_cooldown (P w : Nat) (l2 : Int) (n : Nat) (as : List Action) (s : Sys)
    (h : s.time < w → s.pc2 = .wait2000 ∧ s.wake2 = w ∧ s.led2_level = l2 ∧
      countEv isLed2Write s = n) :
    (exec P as s).time < w → (exec P as s).pc2 = .wait2000 ∧ (exec P as s).wake2 = w ∧
      (exec P as s).led2_level = l2 ∧ countEv isLed2Write (exec P as s) = n := by
  induction as generalizing s with
  | nil => exact h
  | cons a as ih => exact ih _ (act_keeps_cooldown P w l2 n a s h)

/-- C17 (as stated, refuted). From boot, zero latency, 1 ms tick: an edge is accepted
at 2900 ms while the animator is in the cooldown that expires at 3000 ms and clears
`can_blink`; when the cooldown ends, at 3000 ms, `led2_task` sets `can_blink` to 1 and
drives its output high all the same. -/
theorem event_in_cooldown_counterexample :
    eventInCooldown.pc2 = .wait2000 ∧ eventInCooldown.time = 2900 ∧
    eventInCooldown.wake2 = 3000 ∧ eventInCooldown.last_interrupt_time = 2900 ∧
    eventInCooldown.can_blink = 0 ∧ eventInCooldown.led2_level = 0 ∧
    (round eventInCooldown).time = 3000 ∧ (round eventInCooldown).can_blink = 1 ∧
    (round eventInCooldown).led2_level = 1 ∧
    (round eventInCooldown).trace =
      eventInCooldown.trace ++ [(3000, Ev.blinkOn), (3000, Ev.led2 1)] := by
  decide

/-- C17 (amended). A loop iteration of `led2_task` that observes `can_blink` false at its
check enters the cooldown, which expires 2000 ms later; until then, whatever else
happens, the animator stays blocked in the delay, makes no output write and a step
of it changes nothing. Once the delay has expired it sets `can_blink` to 1 and drives
its output high, whatever the value of `can_blink` at that moment: an event accepted
during the cooldown clears the flag but does not keep the animator from blinking;
with zero latency this happens exactly at the expiry. `led2_task` arrives at line 116
only having just read `can_blink` as true or set it to 1 itself. -/
theorem cooldown_turn (P : Nat) (s : Sys) (hpc : s.pc2 = .check) (hflag : s.can_blink = 0) :
    (led2_task s).pc2 = .delay2000 ∧
    led2_task (led2_task s) = { s with pc2 := .wait2000, wake2 := s.time + 2000 } ∧
    (∀ as : List Action,
      (exec P as (led2_task (led2_task s))).time < s.time + 2000 →
      (exec P as (led2_task (led2_task s))).pc2 = .wait2000 ∧
      (exec P as (led2_task (led2_task s))).wake2 = s.time + 2000 ∧
      (exec P as (led2_task (led2_task s))).led2_level = s.led2_level ∧
      countEv isLed2Write (exec P as (led2_task (led2_task s))) = countEv isLed2Write s ∧
      led2_task (exec P as (led2_task (led2_task s))) = exec P as (led2_task (led2_task s))) ∧
    (∀ x : Sys, x.pc2 = .wait2000 → x.wake2 ≤ x.time →
      (led2_task x).pc2 = .enable ∧
      (led2_task (led2_task x)).can_blink = 1 ∧ (led2_task (led2_task x)).pc2 = .high ∧
      (led2_task (led2_task (led2_task x))).led2_level = 1 ∧
      (led2_task (led2_task (led2_task x))).trace =
        x.trace ++ [(x.time, Ev.blinkOn), (x.time, Ev.led2 1)]) ∧
    (∀ x : Sys, x.pc1 = .take → x.buttonSemaphore = false → x.pc2 = .wait2000 →
      x.time < x.wake2 →
      (round x).time = x.wake2 ∧ (round x).can_blink = 1 ∧ (round x).led2_level = 1) ∧
    (∀ x : Sys, (led2_task x).pc2 = .high → (led2_task x).can_blink ≠ 0) := by
  have hstep : led2_task (led2_task s) = { s with pc2 := .wait2000, wake2 := s.time + 2000 } := by
    obtain ⟨time, last, cb, sem, lamp, l1, l2, pc1, pc2, wake, tr⟩ := s
    simp only at hpc hflag
    subst hpc hflag
    simp [led2_task, vTaskDelay]
  refine ⟨by simp [led2_task, hpc, hflag], hstep, ?_, ?_, ?_, ?_⟩
  · intro as ht
    have hinv := exec_keeps_cooldown P (s.time + 2000) s.led2_level (countEv isLed2Write s) as
      (led2_task (led2_task s)) (fun _ => by rw [hstep]; exact ⟨rfl, rfl, rfl, rfl⟩) ht
    obtain ⟨i1, i2, i3, i4⟩ := hinv
    exact ⟨i1, i2, i3, i4, led2_task_blocked _ i1 (by omega)⟩
  · intro x hx hle
    obtain ⟨time, last, cb, sem, lamp, l1, l2, pc1, pc2, wake, tr⟩ := x
    simp only at hx hle
    subst hx
    simp [led2_task, hle]
  · intro x h1 h2 h3 h4
    rw [round_cooldown x h1 h2 h3 h4]
    exact ⟨rfl, rfl, rfl⟩
  · intro x hx
    obtain ⟨time, last, cb, sem, lamp, l1, l2, pc1, pc2, wake, tr⟩ := x
    cases pc2 <;> simp only [led2_task] at hx ⊢ <;> (try split at hx) <;>
      simp_all

/-- Witness for C17 (amended): from boot with a 1 ms tick, the check that follows the
edge accepted at 300 ms; 1999 ms into the cooldown the animator is still blocked. -/
theorem cooldown_turn_witness :
    (rounds 1 afterFirstEvent).pc2 = .wait500b ∧
    (led2_task (act 1 (.elapse 500) (rounds 1 afterFirstEvent))).pc2 = .check ∧
    (led2_task (act 1 (.elapse 500) (rounds 1 afterFirstEvent))).can_blink = 0 ∧
    (led2_task (led2_task (act 1 (.elapse 500) (rounds 1 afterFirstEvent)))).pc2
      = .delay2000 :=
  ⟨by decide, by decide, by decide,
    (cooldown_turn 1 (led2_task (act 1 (.elapse 500) (rounds 1 afterFirstEvent)))
      (by decide) (by decide)).1⟩

end ImpFinal
